import Mathlib

/-!
Shallow embedding of the Ludo-style game server `web-clovece_nezlob_se`
(`src/app/models.py`, `src/app/game_logic.py`, and the room-message branches of
`handle_room_message` in `src/main.py`).

Python objects become immutable Lean structures; in-place mutation of an object
found by a first-match search becomes a functional update of the first matching
list element (`update_first`), which selects the very same element.  Python
integers are unbounded, so they are modelled as `Int`; the Python `%` on a
positive modulus agrees with `Int.emod`.  A Python `raise` inside the rule
engine becomes an `Except.error`; every `raise` in the source occurs before any
state mutation, and the translation keeps the statement order of the source.
Fields that carry no game-state content (names, tokens, websocket bookkeeping,
timestamps) are omitted.  `Piece.position` is `Option Int` because the source
stores `None` there for finished pieces.
-/

inductive GameStatus
  | waiting
  | playing
  | finished
  deriving DecidableEq

inductive PieceStatus
  | home
  | track
  | home_lane
  | finished
  deriving DecidableEq

inductive Color
  | red
  | blue
  | yellow
  | green
  deriving DecidableEq

structure Piece where
  piece_id : Nat
  player_id : Nat
  status : PieceStatus
  position : Option Int
  home_position : Int
  deriving DecidableEq

structure Player where
  player_id : Nat
  color : Option Color
  pieces : List Piece
  start_position : Int
  stats_turns : Nat
  stats_deployments : Nat
  stats_moves : Nat
  stats_captures : Nat
  stats_sixes : Nat
  deriving DecidableEq

structure GameSession where
  status : GameStatus
  players : List Player
  current_player_id : Option Nat
  last_dice_roll : Int
  can_roll_dice : Bool
  winner_id : Option Nat
  initial_rolls_remaining : List (Nat × Nat)
  solo_mode : Bool
  solo_player_id : Option Nat
  deriving DecidableEq

/-- Constant `TRACK_LEN` from `game_logic.py`. -/
def TRACK_LEN : Int := 52

/-- Constant `LANE_LEN` from `game_logic.py`. -/
def LANE_LEN : Int := 4

/-- Dictionary `START_INDEX` from `game_logic.py`. -/
def START_INDEX : Color → Int
  | Color.red => 0
  | Color.blue => 13
  | Color.yellow => 26
  | Color.green => 39

/-- Dictionary `ENTRY_INDEX` from `game_logic.py`:
`(START_INDEX[c] + TRACK_LEN - 1) % TRACK_LEN`. -/
def ENTRY_INDEX (c : Color) : Int :=
  (START_INDEX c + TRACK_LEN - 1) % TRACK_LEN

/-- `GameSession.get_player` from `models.py` (first player with the id). -/
def GameSession.get_player (s : GameSession) (pid : Nat) : Option Player :=
  s.players.find? (fun p => decide (p.player_id = pid))

/-- `GameSession.get_current_player` from `models.py`. -/
def GameSession.get_current_player (s : GameSession) : Option Player :=
  match s.current_player_id with
  | none => none
  | some cid => s.get_player cid

/-- `GameSession.get_next_player` from `models.py`. -/
def GameSession.get_next_player (s : GameSession) : Option Player :=
  match s.players with
  | [] => none
  | p0 :: _ =>
    match s.current_player_id with
    | none => some p0
    | some cid =>
      match s.players.findIdx? (fun p => decide (p.player_id = cid)) with
      | none => some p0
      | some i =>
        match s.players[(i + 1) % s.players.length]? with
        | some p => some p
        | none => some p0

/-- Functional form of a Python in-place mutation of the first list element
satisfying `q`: every other element is kept unchanged. -/
def update_first {α : Type} (l : List α) (q : α → Bool) (f : α → α) : List α :=
  match l with
  | [] => []
  | a :: rest => if q a then f a :: rest else a :: update_first rest q f

/-- `get_own_piece_at_position` from `game_logic.py` (the `state` string becomes
a `PieceStatus`; the source compares `piece.status.value == state`). -/
def get_own_piece_at_position (player : Player) (state : PieceStatus) (position : Int) :
    Option Piece :=
  player.pieces.find? (fun piece => decide (piece.status = state ∧ piece.position = some position))

/-- `can_move_piece` from `game_logic.py`.  The `session` parameter of the
source is unused there and dropped here.  The source would raise `TypeError`
on a non-`finished` piece whose `position` is `None`; that state is
unreachable, and the embedding returns `false` for it. -/
def can_move_piece (player : Player) (piece : Piece) (dice_roll : Int) : Bool :=
  if piece.status = PieceStatus.finished then false
  else
    match player.color with
    | none => false
    | some color =>
      if piece.status = PieceStatus.home then
        if dice_roll ≠ 6 then false
        else
          let start_pos := START_INDEX color
          if (get_own_piece_at_position player PieceStatus.track start_pos).isSome then false
          else true
      else if piece.status = PieceStatus.track then
        match piece.position with
        | none => false
        | some cur =>
          let entry := ENTRY_INDEX color
          let steps_to_entry := (entry - cur + TRACK_LEN) % TRACK_LEN
          if dice_roll > steps_to_entry then
            let lane_step := dice_roll - steps_to_entry - 1
            if lane_step ≥ LANE_LEN then false
            else if (get_own_piece_at_position player PieceStatus.home_lane lane_step).isSome then
              false
            else true
          else
            let new_pos := (cur + dice_roll) % TRACK_LEN
            if (get_own_piece_at_position player PieceStatus.track new_pos).isSome then false
            else true
      else if piece.status = PieceStatus.home_lane then
        match piece.position with
        | none => false
        | some cur_lane_pos =>
          let new_lane_pos := cur_lane_pos + dice_roll
          if new_lane_pos > LANE_LEN - 1 then false
          else if new_lane_pos = LANE_LEN - 1 then true
          else if (get_own_piece_at_position player PieceStatus.home_lane new_lane_pos).isSome then
            false
          else true
      else false

/-- First own piece with a given `piece_id` (the handler lookup
`next(p for p in player.pieces if p.piece_id == piece_id)` in `main.py`). -/
def find_piece (player : Player) (piece_id : Nat) : Option Piece :=
  player.pieces.find? (fun p => decide (p.piece_id = piece_id))

/-- First piece of one player with status `track` at `pos` (the inner loop of
the capture search in `move_piece`). -/
def find_piece_on_track (pl : Player) (pos : Int) : Option Piece :=
  pl.pieces.find? (fun pc => decide (pc.status = PieceStatus.track ∧ pc.position = some pos))

/-- The capture search of `move_piece` in `game_logic.py`: the first player
other than the mover (compared by id) owning a `track` piece at `pos`, paired
with that first piece. -/
def find_captured (players : List Player) (mover_id : Nat) (pos : Int) : Option (Nat × Piece) :=
  match players.find?
      (fun pl => decide (pl.player_id ≠ mover_id) && (find_piece_on_track pl pos).isSome) with
  | none => none
  | some pl =>
    match find_piece_on_track pl pos with
    | some pc => some (pl.player_id, pc)
    | none => none

/-- The mutation a capture applies to the player owning the captured piece:
its first `track` piece at `pos` goes back to its own home slot (status
`home`, position `home_position`), as `move_piece` mutates the found piece. -/
def capture_player_update (pl : Player) (pos : Int) : Player :=
  { pl with
    pieces := update_first pl.pieces
      (fun pc => decide (pc.status = PieceStatus.track ∧ pc.position = some pos))
      (fun pc => { pc with status := PieceStatus.home, position := some pc.home_position }) }

/-- The capture mutation of `move_piece`: the piece found by the capture search
is sent back to its own home slot. -/
def apply_capture (players : List Player) (mover_id : Nat) (pos : Int) : List Player :=
  update_first players
    (fun pl => decide (pl.player_id ≠ mover_id) && (find_piece_on_track pl pos).isSome)
    (fun pl => capture_player_update pl pos)

/-- `move_piece` from `game_logic.py`.  The Python function receives the player
and piece objects; the handler always takes them from the session, so the
embedding receives their ids and performs the same first-match lookups.  Every
`raise` of the source becomes an `Except.error` carrying the source message;
all of them occur before any mutation, as in the source.  The counter bumps
(`stats_captures`, `stats_deployments`, `stats_moves`) touch the same mover
object as the piece update and are merged into one functional update. -/
def move_piece (session : GameSession) (player_id piece_id : Nat) (dice_roll : Int) :
    Except String GameSession :=
  match session.get_player player_id with
  | none => Except.error "Hráč nenalezen"
  | some player =>
    match find_piece player piece_id with
    | none => Except.error "Figurka nenalezena"
    | some piece =>
      if ¬ can_move_piece player piece dice_roll then
        Except.error "Nelze pohnout figurkou"
      else
        match player.color with
        | none => Except.error "Hráč nemá barvu"
        | some color =>
          if piece.status = PieceStatus.home then
            let start_pos := START_INDEX color
            let captured := find_captured session.players player_id start_pos
            let players1 :=
              match captured with
              | some _ => apply_capture session.players player_id start_pos
              | none => session.players
            let players2 := update_first players1 (fun pl => decide (pl.player_id = player_id))
              (fun pl =>
                { pl with
                  pieces := update_first pl.pieces (fun pc => decide (pc.piece_id = piece_id))
                    (fun pc =>
                      { pc with status := PieceStatus.track, position := some start_pos }),
                  stats_captures := pl.stats_captures + (if captured.isSome then 1 else 0),
                  stats_deployments := pl.stats_deployments + 1 })
            Except.ok { session with players := players2 }
          else if piece.status = PieceStatus.track then
            match piece.position with
            | none => Except.error "Neznámý stav figurky"
            | some cur =>
              let entry := ENTRY_INDEX color
              let steps_to_entry := (entry - cur + TRACK_LEN) % TRACK_LEN
              if dice_roll > steps_to_entry then
                let lane_step := dice_roll - steps_to_entry - 1
                if lane_step ≥ LANE_LEN then Except.error "Přestřelení cíle"
                else if (get_own_piece_at_position player PieceStatus.home_lane lane_step).isSome
                then Except.error "Lane políčko je obsazené vlastní figurkou"
                else
                  let players1 := update_first session.players
                    (fun pl => decide (pl.player_id = player_id))
                    (fun pl =>
                      { pl with
                        pieces := update_first pl.pieces
                          (fun pc => decide (pc.piece_id = piece_id))
                          (fun pc =>
                            if lane_step = LANE_LEN - 1 then
                              { pc with status := PieceStatus.finished, position := none }
                            else
                              { pc with status := PieceStatus.home_lane,
                                        position := some lane_step }) })
                  Except.ok { session with players := players1 }
              else
                let new_pos := (cur + dice_roll) % TRACK_LEN
                if (get_own_piece_at_position player PieceStatus.track new_pos).isSome then
                  Except.error "Track políčko je obsazené vlastní figurkou"
                else
                  let players1 := update_first session.players
                    (fun pl => decide (pl.player_id = player_id))
                    (fun pl =>
                      { pl with
                        pieces := update_first pl.pieces
                          (fun pc => decide (pc.piece_id = piece_id))
                          (fun pc => { pc with position := some new_pos }) })
                  let captured := find_captured players1 player_id new_pos
                  let players2 :=
                    match captured with
                    | some _ => apply_capture players1 player_id new_pos
                    | none => players1
                  let players3 := update_first players2
                    (fun pl => decide (pl.player_id = player_id))
                    (fun pl =>
                      { pl with
                        stats_captures := pl.stats_captures + (if captured.isSome then 1 else 0),
                        stats_moves := pl.stats_moves + 1 })
                  Except.ok { session with players := players3 }
          else if piece.status = PieceStatus.home_lane then
            match piece.position with
            | none => Except.error "Neznámý stav figurky"
            | some cur_lane_pos =>
              let new_lane_pos := cur_lane_pos + dice_roll
              if new_lane_pos > LANE_LEN - 1 then
                Except.error "Přestřelení cíle - musí se trefit přesně"
              else if new_lane_pos < LANE_LEN - 1 ∧
                  (get_own_piece_at_position player PieceStatus.home_lane new_lane_pos).isSome then
                Except.error "Lane políčko je obsazené vlastní figurkou"
              else
                let players1 := update_first session.players
                  (fun pl => decide (pl.player_id = player_id))
                  (fun pl =>
                    { pl with
                      pieces := update_first pl.pieces
                        (fun pc => decide (pc.piece_id = piece_id))
                        (fun pc =>
                          if new_lane_pos = LANE_LEN - 1 then
                            { pc with status := PieceStatus.finished, position := none }
                          else
                            { pc with position := some new_lane_pos }),
                      stats_moves := pl.stats_moves + 1 })
                Except.ok { session with players := players1 }
          else Except.error "Neznámý stav figurky"

/-- `has_pieces_on_board` from `game_logic.py` (the `session` parameter of the
source is unused there and dropped here). -/
def has_pieces_on_board (player : Player) : Bool :=
  player.pieces.any (fun piece =>
    decide (piece.status = PieceStatus.track ∨ piece.status = PieceStatus.home_lane))

/-- `get_can_move_pawn_ids` from `game_logic.py`. -/
def get_can_move_pawn_ids (player : Player) (dice_roll : Int) : List Nat :=
  (player.pieces.filter (fun piece => can_move_piece player piece dice_roll)).map
    (fun piece => piece.piece_id)

/-- Lookup with default 0 in the `initial_rolls_remaining` dictionary
(`room.initial_rolls_remaining.get(pid, 0)`). -/
def dict_get (d : List (Nat × Nat)) (k : Nat) : Nat :=
  match d.find? (fun kv => decide (kv.fst = k)) with
  | some kv => kv.snd
  | none => 0

/-- Assignment in the `initial_rolls_remaining` dictionary
(`room.initial_rolls_remaining[pid] = v`); keys are unique. -/
def dict_set (d : List (Nat × Nat)) (k v : Nat) : List (Nat × Nat) :=
  if d.any (fun kv => decide (kv.fst = k)) then
    d.map (fun kv => if kv.fst = k then (k, v) else kv)
  else d ++ [(k, v)]

/-- `end_turn` from `game_logic.py`.  The two trailing branches of the source
(`dice_roll == 6 and not after_move` and `dice_roll != 6 or not after_move`)
have identical bodies and, after the early return for `6 and after_move`,
exactly one of them runs; they are merged into the single final block. -/
def end_turn (session : GameSession) (dice_roll : Int) (after_move : Bool) : GameSession :=
  match session.get_current_player with
  | none => session
  | some current_player =>
    let session1 :=
      if ¬ after_move ∨ dice_roll ≠ 6 then
        { session with
          players := update_first session.players
            (fun pl => decide (pl.player_id = current_player.player_id))
            (fun pl => { pl with stats_turns := pl.stats_turns + 1 }) }
      else session
    if dice_roll = 6 ∧ after_move then { session1 with can_roll_dice := true }
    else
      let session2 := { session1 with last_dice_roll := 0 }
      match session2.get_next_player with
      | none => { session2 with can_roll_dice := true }
      | some next_player =>
        let session3 := { session2 with current_player_id := some next_player.player_id }
        let session4 :=
          if ¬ has_pieces_on_board next_player then
            { session3 with
              initial_rolls_remaining :=
                dict_set session3.initial_rolls_remaining next_player.player_id 3 }
          else session3
        { session4 with can_roll_dice := true }

/-- The first player with all 4 pieces finished (the winner search of
`check_game_end`). -/
def winner_of (players : List Player) : Option Player :=
  players.find? (fun p =>
    decide ((p.pieces.filter (fun pc => decide (pc.status = PieceStatus.finished))).length = 4))

/-- `check_game_end` from `game_logic.py`: returns the mutated session and the
winner id returned by the source. -/
def check_game_end (session : GameSession) : GameSession × Option Nat :=
  match winner_of session.players with
  | some p =>
    ({ session with status := GameStatus.finished, winner_id := some p.player_id },
      some p.player_id)
  | none => (session, none)

/-- Core of the `roll_dice` branch of `handle_room_message` in `main.py`
(lines 651–691), after the acting player has been resolved.  The randomly
rolled value is a parameter.  The second component models the reply: `some msg`
is an error reply with the room untouched, `none` is the success broadcast.
The source computes `has_on_board` and `can_move_ids` from the same player
object after the sixes bump; the bump only changes `stats_sixes`, which neither
function reads, so the pre-bump value is used. -/
def roll_dice_core (room : GameSession) (player : Player) (dice_value : Int) :
    GameSession × Option String :=
  if ¬ room.can_roll_dice then (room, some "Nemůžete házet kostkou")
  else
    let room1 := { room with last_dice_roll := dice_value }
    let room2 :=
      if dice_value = 6 then
        { room1 with
          players := update_first room1.players
            (fun pl => decide (pl.player_id = player.player_id))
            (fun pl => { pl with stats_sixes := pl.stats_sixes + 1 }) }
      else room1
    let has_on_board := has_pieces_on_board player
    let current_pid :=
      if room2.solo_mode then room2.current_player_id.getD player.player_id
      else player.player_id
    let can_move_ids := get_can_move_pawn_ids player dice_value
    let has_valid := ¬ can_move_ids.isEmpty
    if dice_value = 6 then
      if ¬ has_valid then (end_turn room2 dice_value false, none)
      else ({ room2 with can_roll_dice := false }, none)
    else if has_on_board then
      if ¬ has_valid then (end_turn room2 dice_value false, none)
      else ({ room2 with can_roll_dice := false }, none)
    else
      let initial := dict_get room2.initial_rolls_remaining current_pid
      if initial > 0 then
        ({ room2 with
            initial_rolls_remaining := dict_set room2.initial_rolls_remaining current_pid
              (initial - 1),
            can_roll_dice := true }, none)
      else
        (end_turn { room2 with can_roll_dice := false } dice_value false, none)

/-- The `roll_dice` branch of `handle_room_message` in `main.py` (lines
630–691).  A Python `return` without a reply (missing player) is modelled as an
error reply as well, since it also leaves the room untouched. -/
def handle_roll_dice (room : GameSession) (player_id : Nat) (dice_value : Int) :
    GameSession × Option String :=
  if room.status ≠ GameStatus.playing then (room, some "Hra neběží")
  else if room.solo_mode then
    if room.solo_player_id ≠ some player_id then (room, some "Není váš tah")
    else
      match room.get_current_player with
      | none => (room, some "bez odpovědi")
      | some player => roll_dice_core room player dice_value
  else
    if room.current_player_id ≠ some player_id then (room, some "Není váš tah")
    else
      match room.get_player player_id with
      | none => (room, some "bez odpovědi")
      | some player => roll_dice_core room player dice_value

/-- The `move_piece` branch of `handle_room_message` in `main.py` (lines
694–757).  The dice value used is the stored `room.last_dice_roll`.  The
`except` block of the source catches the `move_piece` raise and replies with an
error, the room being untouched because every raise precedes mutation. -/
def handle_move_piece (room : GameSession) (player_id piece_id : Nat) :
    GameSession × Option String :=
  if room.status ≠ GameStatus.playing then (room, some "Hra neběží")
  else if room.solo_mode ∧ room.solo_player_id ≠ some player_id then
    (room, some "Není váš tah")
  else if ¬ room.solo_mode ∧ room.current_player_id ≠ some player_id then
    (room, some "Není váš tah")
  else if room.can_roll_dice then (room, some "Nejdříve hoďte kostkou")
  else
    match room.get_current_player with
    | none => (room, some "bez odpovědi")
    | some current_player =>
      let player? := if room.solo_mode then some current_player else room.get_player player_id
      match player? with
      | none => (room, some "bez odpovědi")
      | some player =>
        match find_piece player piece_id with
        | none => (room, some "Figurka nenalezena")
        | some piece =>
          if ¬ can_move_piece player piece room.last_dice_roll then
            (room, some "Nelze pohnout figurkou")
          else
            match move_piece room player.player_id piece_id room.last_dice_roll with
            | Except.error _ => (room, some "Nelze pohnout figurkou")
            | Except.ok room2 =>
              match check_game_end room2 with
              | (room3, some _) => (room3, none)
              | (room3, none) => (end_turn room3 room3.last_dice_roll true, none)

/-- `remove_player_from_room` from `main.py` restricted to the session state
(the global registries it also clears carry no game state). -/
def remove_player_from_room (room : GameSession) (pid : Nat) : GameSession :=
  { room with players := room.players.filter (fun p => decide (p.player_id ≠ pid)) }

/-- `reset_room` from `main.py` (the `last_activity` timestamp is not
modelled). -/
def reset_room (room : GameSession) : GameSession :=
  { room with
    status := GameStatus.waiting,
    current_player_id := none,
    last_dice_roll := 0,
    can_roll_dice := true,
    initial_rolls_remaining := [],
    winner_id := none,
    solo_mode := false,
    solo_player_id := none }

/-- The `leave_lobby` branch of `handle_room_message` in `main.py` (lines
785–800).  Room deletion only removes the room from the registry; the session
value at that point is what the function returns. -/
def handle_leave_lobby (room : GameSession) (pid : Nat) : GameSession :=
  let room1 := remove_player_from_room room pid
  if room1.status = GameStatus.waiting then room1
  else if room1.players.length < 2 ∧ ¬ room1.solo_mode then
    { reset_room room1 with players := [] }
  else room1

/-- The room-mutating part of `remove_dead_player` in `main.py` (lines
207–245), for a player that is in a room. -/
def remove_dead_player (room : GameSession) (pid : Nat) : GameSession :=
  let was_current := room.current_player_id = some pid
  let room1 := remove_player_from_room room pid
  if room1.status = GameStatus.playing then
    if room1.players.length < 2 ∧ ¬ room1.solo_mode then
      { reset_room room1 with players := [] }
    else if was_current then
      match room1.get_next_player with
      | none => room1
      | some nxt =>
        let room2 :=
          { room1 with
            current_player_id := some nxt.player_id,
            can_roll_dice := true,
            last_dice_roll := 0 }
        if ¬ has_pieces_on_board nxt then
          { room2 with
            initial_rolls_remaining := dict_set room2.initial_rolls_remaining nxt.player_id 3 }
        else room2
    else room1
  else room1

/-- A fresh piece in its home slot, as `Player.__post_init__` creates it. -/
def mk_home_piece (owner idx : Nat) : Piece :=
  { piece_id := owner * 10 + idx,
    player_id := owner,
    status := PieceStatus.home,
    position := some (Int.ofNat idx),
    home_position := Int.ofNat idx }

/-- A player with four home pieces, as the game start lays them out. -/
def mk_fresh_player (pid : Nat) (c : Color) : Player :=
  { player_id := pid,
    color := some c,
    pieces := [mk_home_piece pid 0, mk_home_piece pid 1, mk_home_piece pid 2, mk_home_piece pid 3],
    start_position := START_INDEX c,
    stats_turns := 0,
    stats_deployments := 0,
    stats_moves := 0,
    stats_captures := 0,
    stats_sixes := 0 }

/-- A freshly started two-player room, as `initialize_game` leaves it. -/
def sample_session : GameSession :=
  { status := GameStatus.playing,
    players := [mk_fresh_player 1 Color.red, mk_fresh_player 2 Color.blue],
    current_player_id := some 1,
    last_dice_roll := 0,
    can_roll_dice := true,
    winner_id := none,
    initial_rolls_remaining := [(1, 3), (2, 3)],
    solo_mode := false,
    solo_player_id := none }

/-- One accepted dice roll of value 1 (never a deployable roll) by player 1. -/
def roll_non6 (s : GameSession) : GameSession := (handle_roll_dice s 1 1).1

/-- A freshly started three-player room. -/
def sample_session3 : GameSession :=
  { status := GameStatus.playing,
    players := [mk_fresh_player 1 Color.red, mk_fresh_player 2 Color.blue,
      mk_fresh_player 3 Color.yellow],
    current_player_id := some 1,
    last_dice_roll := 0,
    can_roll_dice := true,
    winner_id := none,
    initial_rolls_remaining := [(1, 3), (2, 3), (3, 3)],
    solo_mode := false,
    solo_player_id := none }

/-- A piece sitting in the colour lane at index `pos`. -/
def mk_lane_piece (owner idx : Nat) (pos : Int) : Piece :=
  { piece_id := owner * 10 + idx,
    player_id := owner,
    status := PieceStatus.home_lane,
    position := some pos,
    home_position := Int.ofNat idx }

/-- A red player with lane pieces at lane indices 0 and 1. -/
def lane_player : Player :=
  { mk_fresh_player 1 Color.red with
    pieces := [mk_lane_piece 1 0 0, mk_lane_piece 1 1 1, mk_home_piece 1 2, mk_home_piece 1 3] }

/-- The part of a `Player` that the turn bookkeeping reads: identity and
pieces.  The statistics bumps of the handlers preserve it. -/
def player_sig (p : Player) : Nat × List Piece := (p.player_id, p.pieces)

/-- The part of a `Player` that the C10 bookkeeping reads: identity and the
sixes counter. -/
def player_six_sig (p : Player) : Nat × Nat := (p.player_id, p.stats_sixes)

/-- The `stepsToEntry` quantity of the specification, as computed by
`can_move_piece` and `move_piece`: `(entry - cur + TRACK_LEN) % TRACK_LEN`. -/
def steps_to_entry (c : Color) (cur : Int) : Int :=
  (ENTRY_INDEX c - cur + TRACK_LEN) % TRACK_LEN

/-- The mover update performed by the lane branch of `move_piece` when the
piece lands exactly on lane index 3. -/
def lane_finish_player (player : Player) (pcid : Nat) : Player :=
  { player with
    pieces := update_first player.pieces (fun pc => decide (pc.piece_id = pcid)) (fun pc =>
      { pc with status := PieceStatus.finished, position := none }),
    stats_moves := player.stats_moves + 1 }

/-- The player-list update performed by the lane branch of `move_piece` when
the piece lands exactly on lane index 3. -/
def lane_finish_update (ps : List Player) (pid pcid : Nat) : List Player :=
  update_first ps (fun pl => decide (pl.player_id = pid)) (fun pl => lane_finish_player pl pcid)

/-- The mutation a capture applies to the captured piece: back to its own home
slot. -/
def capture_piece_home (pc : Piece) : Piece :=
  { pc with status := PieceStatus.home, position := some pc.home_position }

/-- The player-list update of the lane-entry branch of `move_piece`. -/
def lane_entry_update (ps : List Player) (pid pcid : Nat) (lane_step : Int) : List Player :=
  update_first ps (fun pl => decide (pl.player_id = pid)) (fun pl =>
    { pl with
      pieces := update_first pl.pieces (fun pc => decide (pc.piece_id = pcid)) (fun pc =>
        if lane_step = LANE_LEN - 1 then
          { pc with status := PieceStatus.finished, position := none }
        else { pc with status := PieceStatus.home_lane, position := some lane_step }) })

/-- The piece-position update of the track-move branch of `move_piece`. -/
def track_move_update (ps : List Player) (pid pcid : Nat) (new_pos : Int) : List Player :=
  update_first ps (fun pl => decide (pl.player_id = pid)) (fun pl =>
    { pl with
      pieces := update_first pl.pieces (fun pc => decide (pc.piece_id = pcid)) (fun pc =>
        { pc with position := some new_pos }) })

/-- The statistics update of the track-move branch of `move_piece`. -/
def track_stats_update (ps : List Player) (pid : Nat) (captured : Bool) : List Player :=
  update_first ps (fun pl => decide (pl.player_id = pid)) (fun pl =>
    { pl with
      stats_captures := pl.stats_captures + (if captured then 1 else 0),
      stats_moves := pl.stats_moves + 1 })

/-- The full player-list transformation of a track→track `move_piece`: piece
moved, capture applied, statistics bumped. -/
def track_run_result (ps : List Player) (pid pcid : Nat) (dest : Int) : List Player :=
  track_stats_update
    (match find_captured (track_move_update ps pid pcid dest) pid dest with
     | some _ => apply_capture (track_move_update ps pid pcid dest) pid dest
     | none => track_move_update ps pid pcid dest)
    pid
    (find_captured (track_move_update ps pid pcid dest) pid dest).isSome

/-- The final state of the mover after a track→track `move_piece`. -/
def track_run_mover (player : Player) (pcid : Nat) (dest : Int) (captured : Bool) : Player :=
  { player with
    pieces := update_first player.pieces (fun pc => decide (pc.piece_id = pcid))
      (fun pc => { pc with position := some dest }),
    stats_captures := player.stats_captures + (if captured then 1 else 0),
    stats_moves := player.stats_moves + 1 }

/-- The final state of the mover after a track→lane `move_piece`. -/
def lane_entry_mover (player : Player) (pcid : Nat) (lane_step : Int) : Player :=
  { player with
    pieces := update_first player.pieces (fun pc => decide (pc.piece_id = pcid)) (fun pc =>
      if lane_step = LANE_LEN - 1 then
        { pc with status := PieceStatus.finished, position := none }
      else { pc with status := PieceStatus.home_lane, position := some lane_step }) }

/-- The mover update of the home-deployment branch of `move_piece`. -/
def deploy_update (ps : List Player) (pid pcid : Nat) (start_pos : Int) (captured : Bool) :
    List Player :=
  update_first ps (fun pl => decide (pl.player_id = pid)) (fun pl =>
    { pl with
      pieces := update_first pl.pieces (fun pc => decide (pc.piece_id = pcid)) (fun pc =>
        { pc with status := PieceStatus.track, position := some start_pos }),
      stats_captures := pl.stats_captures + (if captured then 1 else 0),
      stats_deployments := pl.stats_deployments + 1 })

/-- A freshly started two-player room whose first player has exhausted the
deployment budget. -/
def sample_session_b0 : GameSession :=
  { sample_session with initial_rolls_remaining := [(1, 0), (2, 3)] }

/-- A piece on the main track at an absolute position. -/
def mk_track_piece (owner idx : Nat) (pos : Int) : Piece :=
  { piece_id := owner * 10 + idx,
    player_id := owner,
    status := PieceStatus.track,
    position := some pos,
    home_position := Int.ofNat idx }

/-- Red player (entry index 51) with piece 10 on the track at 48. -/
def track_player : Player :=
  { mk_fresh_player 1 Color.red with
    pieces := [mk_track_piece 1 0 48, mk_home_piece 1 1, mk_home_piece 1 2, mk_home_piece 1 3] }

/-- Two-player playing room whose first player has a track piece near the
lane entry. -/
def track_session : GameSession :=
  { sample_session with players := [track_player, mk_fresh_player 2 Color.blue] }

/-- The full player-list transformation of a home→track deployment in
`move_piece`: capture search at the start cell on the incoming list, capture
applied, then the piece deployed and the mover's statistics bumped. -/
def deploy_run_result (ps : List Player) (pid pcid : Nat) (start_pos : Int) : List Player :=
  deploy_update
    (match find_captured ps pid start_pos with
     | some _ => apply_capture ps pid start_pos
     | none => ps)
    pid pcid start_pos (find_captured ps pid start_pos).isSome

/-- The final state of the mover after a home→track deployment. -/
def deploy_mover (player : Player) (pcid : Nat) (start_pos : Int) (captured : Bool) : Player :=
  { player with
    pieces := update_first player.pieces (fun pc => decide (pc.piece_id = pcid))
      (fun pc => { pc with status := PieceStatus.track, position := some start_pos }),
    stats_captures := player.stats_captures + (if captured then 1 else 0),
    stats_deployments := player.stats_deployments + 1 }

/-- Blue player with piece 20 on the track at 50, in the path of the red
track piece of `track_player`. -/
def blue_track_player : Player :=
  { mk_fresh_player 2 Color.blue with
    pieces := [mk_track_piece 2 0 50, mk_home_piece 2 1, mk_home_piece 2 2, mk_home_piece 2 3] }

/-- Room where a red track move to 50 captures the blue piece there. -/
def capture_session : GameSession :=
  { sample_session with players := [track_player, blue_track_player] }

/-- Blue player with piece 20 sitting on red's start cell 0. -/
def blue_on_start_player : Player :=
  { mk_fresh_player 2 Color.blue with
    pieces := [mk_track_piece 2 0 0, mk_home_piece 2 1, mk_home_piece 2 2, mk_home_piece 2 3] }

/-- Room where red's deployment onto start cell 0 captures the blue piece. -/
def deploy_capture_session : GameSession :=
  { sample_session with players := [mk_fresh_player 1 Color.red, blue_on_start_player] }

/-- A finished piece. -/
def mk_fin_piece (owner idx : Nat) : Piece :=
  { piece_id := owner * 10 + idx,
    player_id := owner,
    status := PieceStatus.finished,
    position := none,
    home_position := Int.ofNat idx }

/-- A Playing room in which player 1 has three finished pieces and a lane
piece at index 1, with a stored dice roll of 2 waiting to be used. -/
def winning_session : GameSession :=
  { status := GameStatus.playing,
    players := [
      { mk_fresh_player 1 Color.red with
        pieces := [mk_fin_piece 1 0, mk_lane_piece 1 1 1, mk_fin_piece 1 2, mk_fin_piece 1 3] },
      mk_fresh_player 2 Color.blue],
    current_player_id := some 1,
    last_dice_roll := 2,
    can_roll_dice := false,
    winner_id := none,
    initial_rolls_remaining := [(1, 3), (2, 3)],
    solo_mode := false,
    solo_player_id := none }

/-- A room whose game already ended. -/
def finished_session : GameSession :=
  { sample_session with status := GameStatus.finished, winner_id := some 2 }

example : ENTRY_INDEX Color.red = 51 := by decide
example : ENTRY_INDEX Color.blue = 12 := by decide
example : ENTRY_INDEX Color.yellow = 25 := by decide
example : ENTRY_INDEX Color.green = 38 := by decide
example : (handle_roll_dice sample_session 1 1).2 = none := by decide
example : (handle_roll_dice sample_session 1 1).1.initial_rolls_remaining = [(1, 2), (2, 3)] := by
  decide

/-! Generic lemmas about `update_first`, `find?`, `findIdx?` and `getElem?`
used to track Python object mutations through the functional embedding. -/

theorem update_first_find?_same {α : Type} (q : α → Bool) (f : α → α)
    (h : ∀ a, q (f a) = q a) :
    ∀ l : List α, (update_first l q f).find? q = (l.find? q).map f
  | [] => rfl
  | a :: l => by
    by_cases hq : q a
    · simp only [update_first, if_pos hq]
      rw [List.find?_cons_of_pos _ (by rw [h a]; exact hq), List.find?_cons_of_pos _ hq]
      rfl
    · simp only [update_first, if_neg hq]
      rw [List.find?_cons_of_neg _ hq, List.find?_cons_of_neg _ hq]
      exact update_first_find?_same q f h l

theorem update_first_find?_other {α : Type} (q r : α → Bool) (f : α → α)
    (hr : ∀ a, r (f a) = r a) (hqr : ∀ a, q a = true → r a = false) :
    ∀ l : List α, (update_first l q f).find? r = l.find? r
  | [] => rfl
  | a :: l => by
    by_cases hq : q a
    · simp only [update_first, if_pos hq]
      have hra : r a = false := hqr a hq
      rw [List.find?_cons_of_neg _ (by rw [hr a, hra]; simp),
        List.find?_cons_of_neg _ (by rw [hra]; simp)]
    · simp only [update_first, if_neg hq]
      by_cases hra : r a
      · rw [List.find?_cons_of_pos _ hra, List.find?_cons_of_pos _ hra]
      · rw [List.find?_cons_of_neg _ hra, List.find?_cons_of_neg _ hra]
        exact update_first_find?_other q r f hr hqr l

theorem update_first_map_congr {α β : Type} (q : α → Bool) (f : α → α) (g : α → β)
    (h : ∀ a, g (f a) = g a) :
    ∀ l : List α, (update_first l q f).map g = l.map g
  | [] => rfl
  | a :: l => by
    by_cases hq : q a
    · simp only [update_first, if_pos hq, List.map_cons, h a]
    · simp only [update_first, if_neg hq, List.map_cons,
        update_first_map_congr q f g h l]

theorem update_first_mem {α : Type} (q : α → Bool) (f : α → α) :
    ∀ (l : List α) (a : α), l.find? q = some a → f a ∈ update_first l q f
  | [], a, h => by simp [List.find?] at h
  | b :: l, a, h => by
    by_cases hq : q b
    · rw [List.find?_cons_of_pos _ hq] at h
      cases h
      simp [update_first, hq]
    · rw [List.find?_cons_of_neg _ hq] at h
      simp only [update_first, if_neg hq, List.mem_cons]
      exact Or.inr (update_first_mem q f l a h)

theorem list_find?_congr {α β : Type} (g : α → β) (p : α → Bool)
    (hp : ∀ a b, g a = g b → p a = p b) :
    ∀ l l' : List α, l.map g = l'.map g → (l.find? p).map g = (l'.find? p).map g
  | [], [], _ => rfl
  | [], _ :: _, h => by simp at h
  | _ :: _, [], h => by simp at h
  | a :: l, a' :: l', h => by
    simp only [List.map_cons, List.cons.injEq] at h
    obtain ⟨hg, hrest⟩ := h
    have hpa := hp a a' hg
    by_cases hqa : p a
    · rw [List.find?_cons_of_pos _ hqa, List.find?_cons_of_pos _ (by rw [← hpa]; exact hqa)]
      simp [hg]
    · rw [List.find?_cons_of_neg _ hqa,
        List.find?_cons_of_neg _ (by rw [← hpa]; exact hqa)]
      exact list_find?_congr g p hp l l' hrest

theorem list_findIdx?_congr {α β : Type} (g : α → β) (p : α → Bool)
    (hp : ∀ a b, g a = g b → p a = p b) :
    ∀ (l l' : List α) (i : Nat), l.map g = l'.map g →
      List.findIdx? p l i = List.findIdx? p l' i
  | [], [], _, _ => rfl
  | [], _ :: _, _, h => by simp at h
  | _ :: _, [], _, h => by simp at h
  | a :: l, a' :: l', i, h => by
    simp only [List.map_cons, List.cons.injEq] at h
    obtain ⟨hg, hrest⟩ := h
    rw [List.findIdx?_cons, List.findIdx?_cons, hp a a' hg,
      list_findIdx?_congr g p hp l l' (i + 1) hrest]

theorem list_getElem?_congr {α β : Type} (g : α → β) :
    ∀ (l l' : List α), l.map g = l'.map g → ∀ i : Nat, (l[i]?).map g = (l'[i]?).map g
  | [], [], _, _ => rfl
  | [], _ :: _, h, _ => by simp at h
  | _ :: _, [], h, _ => by simp at h
  | a :: l, a' :: l', h, i => by
    simp only [List.map_cons, List.cons.injEq] at h
    obtain ⟨hg, hrest⟩ := h
    cases i with
    | zero => simpa using hg
    | succ j => simpa using list_getElem?_congr g l l' hrest j

theorem list_length_congr {α β : Type} (g : α → β) (l l' : List α)
    (h : l.map g = l'.map g) : l.length = l'.length := by
  have := congrArg List.length h
  simpa using this

theorem update_first_find?_untouched {α : Type} (q r : α → Bool) (f : α → α) :
    ∀ l : List α, (∀ a, l.find? q = some a → r a = false ∧ r (f a) = false) →
      (update_first l q f).find? r = l.find? r
  | [], _ => rfl
  | b :: l, h => by
    by_cases hq : q b
    · have hb := h b (by rw [List.find?_cons_of_pos _ hq])
      simp only [update_first, if_pos hq]
      rw [List.find?_cons_of_neg _ (by rw [hb.2]; simp),
        List.find?_cons_of_neg _ (by rw [hb.1]; simp)]
    · simp only [update_first, if_neg hq]
      by_cases hrb : r b
      · rw [List.find?_cons_of_pos _ hrb, List.find?_cons_of_pos _ hrb]
      · rw [List.find?_cons_of_neg _ hrb, List.find?_cons_of_neg _ hrb]
        exact update_first_find?_untouched q r f l (fun a ha =>
          h a (by rw [List.find?_cons_of_neg _ hq]; exact ha))

theorem find?_id_of_mem_nodup :
    ∀ (l : List Player) (a : Player), (l.map Player.player_id).Nodup → a ∈ l →
      l.find? (fun p => decide (p.player_id = a.player_id)) = some a
  | [], a, _, ha => absurd ha (List.not_mem_nil a)
  | b :: l, a, hnd, ha => by
    rw [List.map_cons, List.nodup_cons] at hnd
    rcases List.mem_cons.mp ha with rfl | ha2
    · rw [List.find?_cons_of_pos _ (by simp)]
    · have hbne : b.player_id ≠ a.player_id := by
        intro he
        exact hnd.1 (he ▸ List.mem_map_of_mem Player.player_id ha2)
      rw [List.find?_cons_of_neg _ (by simp [hbne])]
      exact find?_id_of_mem_nodup l a hnd.2 ha2

theorem find_captured_eq (players : List Player) (mover_id : Nat) (pos : Int) (ow : Nat)
    (capc : Piece) (h : find_captured players mover_id pos = some (ow, capc)) :
    ∃ owner, players.find? (fun pl =>
        decide (pl.player_id ≠ mover_id) && (find_piece_on_track pl pos).isSome) = some owner ∧
      owner.player_id = ow ∧ ow ≠ mover_id ∧ find_piece_on_track owner pos = some capc := by
  unfold find_captured at h
  cases hf : players.find? (fun pl =>
      decide (pl.player_id ≠ mover_id) && (find_piece_on_track pl pos).isSome) with
  | none => rw [hf] at h; cases h
  | some pl =>
    rw [hf] at h
    dsimp only at h
    cases hf2 : find_piece_on_track pl pos with
    | none => rw [hf2] at h; cases h
    | some pc =>
      rw [hf2] at h
      injection h with h2
      have hid : pl.player_id = ow := congrArg Prod.fst h2
      have hpc : pc = capc := congrArg Prod.snd h2
      have hne : pl.player_id ≠ mover_id := by
        have := List.find?_some hf
        simp at this
        exact this.1
      exact ⟨pl, rfl, hid, hid ▸ hne, hpc ▸ hf2⟩

theorem apply_capture_owner (players : List Player) (mover_id : Nat) (pos : Int)
    (hnd : (players.map Player.player_id).Nodup) (owner : Player)
    (hf : players.find? (fun pl =>
        decide (pl.player_id ≠ mover_id) && (find_piece_on_track pl pos).isSome) = some owner) :
    (apply_capture players mover_id pos).find?
        (fun p => decide (p.player_id = owner.player_id)) =
      some (capture_player_update owner pos) := by
  have hmem := update_first_mem
    (fun pl => decide (pl.player_id ≠ mover_id) && (find_piece_on_track pl pos).isSome)
    (fun pl => capture_player_update pl pos) players owner hf
  have hmap := update_first_map_congr
    (fun pl => decide (pl.player_id ≠ mover_id) && (find_piece_on_track pl pos).isSome)
    (fun pl => capture_player_update pl pos) Player.player_id (fun a => rfl) players
  have hnd2 : ((apply_capture players mover_id pos).map Player.player_id).Nodup := by
    unfold apply_capture
    rw [hmap]
    exact hnd
  have := find?_id_of_mem_nodup (apply_capture players mover_id pos)
    (capture_player_update owner pos) hnd2 hmem
  exact this

theorem apply_capture_other (players : List Player) (mover_id : Nat) (pos : Int) (k : Nat)
    (owner : Player)
    (hf : players.find? (fun pl =>
        decide (pl.player_id ≠ mover_id) && (find_piece_on_track pl pos).isSome) = some owner)
    (hk : k ≠ owner.player_id) :
    (apply_capture players mover_id pos).find? (fun p => decide (p.player_id = k)) =
      players.find? (fun p => decide (p.player_id = k)) := by
  unfold apply_capture
  apply update_first_find?_untouched
  intro a ha
  rw [hf] at ha
  injection ha with ha
  subst ha
  constructor
  · simp [Ne.symm hk]
  · simp [capture_player_update, Ne.symm hk]

theorem apply_capture_mover (players : List Player) (mover_id : Nat) (pos : Int) :
    (apply_capture players mover_id pos).find? (fun p => decide (p.player_id = mover_id)) =
      players.find? (fun p => decide (p.player_id = mover_id)) := by
  unfold apply_capture
  apply update_first_find?_untouched
  intro a ha
  have hq := List.find?_some ha
  simp only [Bool.and_eq_true, decide_eq_true_eq] at hq
  constructor
  · simp [hq.1]
  · simp [capture_player_update, hq.1]

theorem find_captured_update_mover (players : List Player) (pid : Nat) (pos : Int)
    (f : Player → Player) (hid : ∀ p, (f p).player_id = p.player_id) :
    find_captured (update_first players (fun p => decide (p.player_id = pid)) f) pid pos =
      find_captured players pid pos := by
  unfold find_captured
  have h : (update_first players (fun p => decide (p.player_id = pid)) f).find?
      (fun pl => decide (pl.player_id ≠ pid) && (find_piece_on_track pl pos).isSome) =
      players.find?
        (fun pl => decide (pl.player_id ≠ pid) && (find_piece_on_track pl pos).isSome) := by
    apply update_first_find?_untouched
    intro a ha
    have hq : a.player_id = pid := by simpa using List.find?_some ha
    constructor
    · simp [hq]
    · simp [hid a, hq]
  rw [h]

theorem get_player_update_first_other (ps : List Player) (pid k : Nat) (f : Player → Player)
    (hf : ∀ p, (f p).player_id = p.player_id) (hne : k ≠ pid) :
    (update_first ps (fun p => decide (p.player_id = pid)) f).find?
      (fun p => decide (p.player_id = k)) = ps.find? (fun p => decide (p.player_id = k)) := by
  apply update_first_find?_untouched
  intro a ha
  have hq : a.player_id = pid := by
    have := List.find?_some ha
    simpa using this
  constructor
  · simp [hq, Ne.symm hne]
  · simp [hf a, hq, Ne.symm hne]

theorem player_sig_id {a b : Player} (h : player_sig a = player_sig b) :
    a.player_id = b.player_id := congrArg Prod.fst h

theorem player_sig_pieces {a b : Player} (h : player_sig a = player_sig b) :
    a.pieces = b.pieces := congrArg Prod.snd h

theorem has_pieces_congr {a b : Player} (h : player_sig a = player_sig b) :
    has_pieces_on_board a = has_pieces_on_board b := by
  unfold has_pieces_on_board
  rw [player_sig_pieces h]

theorem get_player_update_first_same (ps : List Player) (pid : Nat) (f : Player → Player)
    (hf : ∀ p, (f p).player_id = p.player_id) :
    (update_first ps (fun p => decide (p.player_id = pid)) f).find?
      (fun p => decide (p.player_id = pid)) =
    (ps.find? (fun p => decide (p.player_id = pid))).map f :=
  update_first_find?_same _ f (fun a => by simp [hf a]) ps

theorem find_piece_update_first_same (pieces : List Piece) (pcid : Nat) (f : Piece → Piece)
    (hf : ∀ pc, (f pc).piece_id = pc.piece_id) :
    (update_first pieces (fun pc => decide (pc.piece_id = pcid)) f).find?
      (fun pc => decide (pc.piece_id = pcid)) =
    (pieces.find? (fun pc => decide (pc.piece_id = pcid))).map f :=
  update_first_find?_same _ f (fun a => by simp [hf a]) pieces

theorem find?_pid_congr (ps ps' : List Player) (h : ps.map player_sig = ps'.map player_sig)
    (pid : Nat) :
    (ps.find? (fun p => decide (p.player_id = pid))).map player_sig =
      (ps'.find? (fun p => decide (p.player_id = pid))).map player_sig :=
  list_find?_congr player_sig _
    (fun a b hab => by simp [show a.player_id = b.player_id from player_sig_id hab]) ps ps' h

theorem get_next_player_sig (s s' : GameSession)
    (hcur : s.current_player_id = s'.current_player_id)
    (hpl : s.players.map player_sig = s'.players.map player_sig) :
    (s.get_next_player).map player_sig = (s'.get_next_player).map player_sig := by
  unfold GameSession.get_next_player
  cases hps : s.players with
  | nil =>
    cases hps' : s'.players with
    | nil => simp
    | cons b l' => rw [hps, hps'] at hpl; simp at hpl
  | cons a l =>
    cases hps' : s'.players with
    | nil => rw [hps, hps'] at hpl; simp at hpl
    | cons b l' =>
      rw [hps, hps'] at hpl
      have hh : player_sig a = player_sig b := by
        simp only [List.map_cons, List.cons.injEq] at hpl
        exact hpl.1
      rw [← hcur]
      cases hcur2 : s.current_player_id with
      | none => simpa using hh
      | some cid =>
        dsimp only
        have hidx := list_findIdx?_congr player_sig (fun p => decide (p.player_id = cid))
          (fun x y hxy => by simp [player_sig_id hxy]) (a :: l) (b :: l') 0 hpl
        rw [hidx]
        cases hI : List.findIdx? (fun p => decide (p.player_id = cid)) (b :: l') 0 with
        | none => simpa using hh
        | some i =>
          dsimp only
          have hlen : (a :: l).length = (b :: l').length := list_length_congr player_sig _ _ hpl
          rw [hlen]
          have hget := list_getElem?_congr player_sig (a :: l) (b :: l') hpl
            ((i + 1) % (b :: l').length)
          cases hg : (b :: l')[(i + 1) % (b :: l').length]? with
          | none =>
            rw [hg] at hget
            cases hx : (a :: l)[(i + 1) % (b :: l').length]? with
            | none => simpa using hh
            | some p => rw [hx] at hget; simp at hget
          | some p2 =>
            rw [hg] at hget
            cases hx : (a :: l)[(i + 1) % (b :: l').length]? with
            | none => rw [hx] at hget; simp at hget
            | some p =>
              rw [hx] at hget
              simpa using hget

theorem end_turn_players_sig (s : GameSession) (d : Int) (b : Bool) :
    (end_turn s d b).players.map player_sig = s.players.map player_sig := by
  unfold end_turn
  cases hc : s.get_current_player with
  | none => rfl
  | some cp =>
    dsimp only
    have hupd : ∀ ps : List Player,
        (update_first ps (fun pl => decide (pl.player_id = cp.player_id))
          (fun pl => { pl with stats_turns := pl.stats_turns + 1 })).map player_sig =
          ps.map player_sig :=
      fun ps => update_first_map_congr (fun pl => decide (pl.player_id = cp.player_id))
        (fun pl => { pl with stats_turns := pl.stats_turns + 1 }) player_sig (fun a => rfl) ps
    split_ifs with h1 h2 <;> try split <;> try split_ifs
    all_goals (try rfl)
    all_goals (try simp [hupd])

theorem end_turn_six_sig (s : GameSession) (d : Int) (b : Bool) (k : Nat) :
    ((end_turn s d b).players.find? (fun p => decide (p.player_id = k))).map player_six_sig =
      (s.players.find? (fun p => decide (p.player_id = k))).map player_six_sig := by
  unfold end_turn
  cases hc : s.get_current_player with
  | none => rfl
  | some cp =>
    dsimp only
    have key : ((update_first s.players (fun pl => decide (pl.player_id = cp.player_id))
        (fun pl => { pl with stats_turns := pl.stats_turns + 1 })).find?
          (fun p => decide (p.player_id = k))).map player_six_sig =
        (s.players.find? (fun p => decide (p.player_id = k))).map player_six_sig :=
      list_find?_congr player_six_sig (fun p => decide (p.player_id = k))
        (fun a b hab => by simp [show a.player_id = b.player_id from congrArg Prod.fst hab]) _ _
        (update_first_map_congr (fun pl => decide (pl.player_id = cp.player_id))
          (fun pl => { pl with stats_turns := pl.stats_turns + 1 }) player_six_sig
          (fun a => rfl) s.players)
    split_ifs with h1 h2 <;> try split
    all_goals (try split_ifs)
    all_goals dsimp only
    all_goals (first | exact key | rfl)

theorem end_turn_not_after (s : GameSession) (d : Int) (cp : Player)
    (hcp : s.get_current_player = some cp) (nxt : Player)
    (hnx : s.get_next_player = some nxt) :
    (end_turn s d false).current_player_id = some nxt.player_id ∧
    (end_turn s d false).can_roll_dice = true ∧
    (end_turn s d false).last_dice_roll = 0 ∧
    (end_turn s d false).initial_rolls_remaining =
      (if has_pieces_on_board nxt then s.initial_rolls_remaining
       else dict_set s.initial_rolls_remaining nxt.player_id 3) := by
  unfold end_turn
  rw [hcp]
  dsimp only
  rw [if_pos (Or.inl (by simp))]
  rw [if_neg (by simp)]
  have hupd : ∀ ps : List Player,
      (update_first ps (fun pl => decide (pl.player_id = cp.player_id))
        (fun pl => { pl with stats_turns := pl.stats_turns + 1 })).map player_sig =
        ps.map player_sig :=
    fun ps => update_first_map_congr (fun pl => decide (pl.player_id = cp.player_id))
      (fun pl => { pl with stats_turns := pl.stats_turns + 1 }) player_sig (fun a => rfl) ps
  have hsig := get_next_player_sig
    { s with
      players := update_first s.players (fun pl => decide (pl.player_id = cp.player_id))
        (fun pl => { pl with stats_turns := pl.stats_turns + 1 }),
      last_dice_roll := 0 } s rfl (hupd s.players)
  rw [hnx] at hsig
  cases hny : GameSession.get_next_player
      { s with
        players := update_first s.players (fun pl => decide (pl.player_id = cp.player_id))
          (fun pl => { pl with stats_turns := pl.stats_turns + 1 }),
        last_dice_roll := 0 } with
  | none => rw [hny] at hsig; simp at hsig
  | some nxt2 =>
    rw [hny] at hsig
    have hsig2 : player_sig nxt2 = player_sig nxt := by simpa using hsig
    have hid := player_sig_id hsig2
    have hhas := has_pieces_congr hsig2
    dsimp only
    rw [hid, hhas]
    split_ifs with h3
    · simp [h3]
    · simp [h3]

theorem end_turn_advance_conclusions (room X : GameSession) (dice : Int) (nxt : Player)
    (hXcur : X.current_player_id = room.current_player_id)
    (hXpl : X.players.map player_sig = room.players.map player_sig)
    (hXinit : X.initial_rolls_remaining = room.initial_rolls_remaining)
    (hcpe : (X.get_current_player).isSome)
    (hnx : room.get_next_player = some nxt) :
    (end_turn X dice false).current_player_id = some nxt.player_id ∧
    (end_turn X dice false).can_roll_dice = true ∧
    (end_turn X dice false).last_dice_roll = 0 ∧
    (end_turn X dice false).initial_rolls_remaining =
      (if has_pieces_on_board nxt then room.initial_rolls_remaining
       else dict_set room.initial_rolls_remaining nxt.player_id 3) := by
  obtain ⟨cp, hcp⟩ := Option.isSome_iff_exists.mp hcpe
  have hsig := get_next_player_sig X room hXcur hXpl
  rw [hnx] at hsig
  cases hXn : X.get_next_player with
  | none => rw [hXn] at hsig; simp at hsig
  | some nxt2 =>
    rw [hXn] at hsig
    have hsig2 : player_sig nxt2 = player_sig nxt := by simpa using hsig
    obtain ⟨e1, e2, e3, e4⟩ := end_turn_not_after X dice cp hcp nxt2 hXn
    refine ⟨?_, e2, e3, ?_⟩
    · rw [e1, player_sig_id hsig2]
    · rw [e4, hXinit, player_sig_id hsig2, has_pieces_congr hsig2]

theorem end_turn_pair_conclusions (room X : GameSession) (dice : Int) (nxt : Player)
    (hXcur : X.current_player_id = room.current_player_id)
    (hXpl : X.players.map player_sig = room.players.map player_sig)
    (hXinit : X.initial_rolls_remaining = room.initial_rolls_remaining)
    (hcpe : (X.get_current_player).isSome)
    (hnx : room.get_next_player = some nxt) :
    (end_turn X dice false).last_dice_roll = 0 ∧
    (end_turn X dice false).can_roll_dice = true ∧
    (end_turn X dice false).current_player_id = some nxt.player_id ∧
    (end_turn X dice false).initial_rolls_remaining =
      (if has_pieces_on_board nxt then room.initial_rolls_remaining
       else dict_set room.initial_rolls_remaining nxt.player_id 3) := by
  obtain ⟨e1, e2, e3, e4⟩ :=
    end_turn_advance_conclusions room X dice nxt hXcur hXpl hXinit hcpe hnx
  exact ⟨e3, e2, e1, e4⟩

/-- C1: the claim says a player with no pieces on the board gets exactly 3
dice-roll attempts before the turn passes.  Evaluating the handler on a freshly
started room shows the off-by-one: after three failed (non-6) rolls the same
player still holds the turn and may roll, a fourth failed roll is accepted, and
only then does the turn pass to player 2. -/
theorem C1_budget_gives_four_attempts :
    (roll_non6 (roll_non6 (roll_non6 sample_session))).current_player_id = some 1 ∧
    (roll_non6 (roll_non6 (roll_non6 sample_session))).can_roll_dice = true ∧
    (handle_roll_dice (roll_non6 (roll_non6 (roll_non6 sample_session))) 1 1).2 = none ∧
    (roll_non6 (roll_non6 (roll_non6 (roll_non6 sample_session)))).current_player_id = some 2 := by
  decide

/-- C2 counterexample: in a freshly started room the acting player rolls 3,
the set of legally movable pieces is empty, yet the turn does not end: the
same player keeps the turn, the stored dice value stays 3, and the player may
roll again — refuting the claim that an empty move set always ends the turn
immediately. -/
theorem C2_counterexample :
    get_can_move_pawn_ids (mk_fresh_player 1 Color.red) 3 = [] ∧
    (handle_roll_dice sample_session 1 3).2 = none ∧
    (handle_roll_dice sample_session 1 3).1.current_player_id = some 1 ∧
    (handle_roll_dice sample_session 1 3).1.last_dice_roll = 3 ∧
    (handle_roll_dice sample_session 1 3).1.can_roll_dice = true := by
  decide

/-- C2 (amended): whenever an accepted dice roll in a Playing room yields an
empty set of legally movable pieces and the acting player either rolled a 6,
or has a piece on the Track or in a Lane, or has an exhausted deployment
budget, the turn ends immediately: the stored dice value resets to 0, control
passes to the next seated player, and that player's deployment budget is reset
to 3 exactly when they have no pieces on the track or in a lane.  (The
remaining case — no pieces on the board, a non-6 roll and a positive budget —
is the counterexample: the roller keeps the turn.) -/
theorem C2_empty_move_set_turn_end (room : GameSession) (pid : Nat) (dice : Int)
    (player : Player) (nxt : Player)
    (hst : room.status = GameStatus.playing)
    (hsolo : room.solo_mode = false)
    (hcur : room.current_player_id = some pid)
    (hgp : room.get_player pid = some player)
    (hroll : room.can_roll_dice = true)
    (hempty : get_can_move_pawn_ids player dice = [])
    (hcase : dice = 6 ∨ has_pieces_on_board player = true ∨
      dict_get room.initial_rolls_remaining pid = 0)
    (hnx : room.get_next_player = some nxt) :
    (handle_roll_dice room pid dice).2 = none ∧
    (handle_roll_dice room pid dice).1.last_dice_roll = 0 ∧
    (handle_roll_dice room pid dice).1.can_roll_dice = true ∧
    (handle_roll_dice room pid dice).1.current_player_id = some nxt.player_id ∧
    (handle_roll_dice room pid dice).1.initial_rolls_remaining =
      (if has_pieces_on_board nxt then room.initial_rolls_remaining
       else dict_set room.initial_rolls_remaining nxt.player_id 3) := by
  have hpid : player.player_id = pid := by simpa using List.find?_some hgp
  have hfind : room.players.find? (fun p => decide (p.player_id = pid)) = some player := hgp
  unfold handle_roll_dice roll_dice_core
  simp only [hst, hsolo, hcur, hgp, hroll, hempty, hpid]
  norm_num
  by_cases h6 : dice = 6
  · simp only [h6]
    norm_num
    refine end_turn_pair_conclusions room _ 6 nxt ?_ ?_ ?_ ?_ hnx
    · simp [hcur]
    · dsimp only
      exact update_first_map_congr (fun pl => decide (pl.player_id = pid))
        (fun pl => { pl with stats_sixes := pl.stats_sixes + 1 }) player_sig (fun a => rfl)
        room.players
    · rfl
    · unfold GameSession.get_current_player GameSession.get_player
      dsimp only
      rw [get_player_update_first_same room.players pid
        (fun pl => { pl with stats_sixes := pl.stats_sixes + 1 }) (fun p => rfl), hfind]
      rfl
  · simp only [if_neg h6]
    by_cases hob : has_pieces_on_board player
    · simp only [hob]
      norm_num
      refine end_turn_pair_conclusions room _ dice nxt ?_ ?_ ?_ ?_ hnx
      · simp [hcur]
      · rfl
      · rfl
      · unfold GameSession.get_current_player GameSession.get_player
        dsimp only
        rw [hfind]
        rfl
    · have h0 : dict_get room.initial_rolls_remaining pid = 0 := by
        rcases hcase with h | h | h
        · exact absurd h h6
        · exact absurd h hob
        · exact h
      simp only [if_neg hob]
      norm_num [h0]
      refine end_turn_pair_conclusions room _ dice nxt ?_ ?_ ?_ ?_ hnx
      · simp [hcur]
      · rfl
      · rfl
      · unfold GameSession.get_current_player GameSession.get_player
        dsimp only
        rw [hfind]
        rfl

/-- Witness for `C2_empty_move_set_turn_end`: budget-exhausted player 1 rolls
3 in a fresh two-player room; the turn passes to player 2 with a budget
reset. -/
theorem C2_empty_move_set_turn_end_witness :
    (handle_roll_dice sample_session_b0 1 3).2 = none ∧
    (handle_roll_dice sample_session_b0 1 3).1.last_dice_roll = 0 ∧
    (handle_roll_dice sample_session_b0 1 3).1.can_roll_dice = true ∧
    (handle_roll_dice sample_session_b0 1 3).1.current_player_id =
      some (mk_fresh_player 2 Color.blue).player_id ∧
    (handle_roll_dice sample_session_b0 1 3).1.initial_rolls_remaining =
      (if has_pieces_on_board (mk_fresh_player 2 Color.blue) then
        sample_session_b0.initial_rolls_remaining
       else dict_set sample_session_b0.initial_rolls_remaining
        (mk_fresh_player 2 Color.blue).player_id 3) :=
  C2_empty_move_set_turn_end sample_session_b0 1 3 (mk_fresh_player 1 Color.red)
    (mk_fresh_player 2 Color.blue) rfl rfl rfl (by decide) rfl (by decide)
    (Or.inr (Or.inr (by decide))) (by decide)

/-- C10: for every accepted `roll_dice` in a Playing room, a rolled 6
increments the acting player's sixes counter by exactly 1 — in every branch,
including when the roll yields no legal move and the turn is forfeited; the
counter is bumped before legality is evaluated. -/
theorem C10_six_always_counted (room : GameSession) (pid : Nat) (player : Player)
    (hst : room.status = GameStatus.playing)
    (hsolo : room.solo_mode = false)
    (hcur : room.current_player_id = some pid)
    (hgp : room.get_player pid = some player)
    (hroll : room.can_roll_dice = true) :
    (handle_roll_dice room pid 6).2 = none ∧
    ∃ p2, (handle_roll_dice room pid 6).1.get_player pid = some p2 ∧
      p2.stats_sixes = player.stats_sixes + 1 := by
  have hpid : player.player_id = pid := by simpa using List.find?_some hgp
  have hfind : room.players.find? (fun p => decide (p.player_id = pid)) = some player := hgp
  have hbump : (update_first room.players (fun pl => decide (pl.player_id = pid))
      (fun pl => { pl with stats_sixes := pl.stats_sixes + 1 })).find?
        (fun p => decide (p.player_id = pid)) =
      some { player with stats_sixes := player.stats_sixes + 1 } := by
    rw [get_player_update_first_same room.players pid
      (fun pl => { pl with stats_sixes := pl.stats_sixes + 1 }) (fun p => rfl), hfind]
    rfl
  unfold handle_roll_dice roll_dice_core
  simp only [hst, hsolo, hcur, hgp, hroll, hpid]
  norm_num
  by_cases hv : get_can_move_pawn_ids player 6 = []
  · simp only [if_pos hv]
    norm_num
    have hs := end_turn_six_sig
      { status := GameStatus.playing,
        players := update_first room.players (fun pl => decide (pl.player_id = pid)) (fun pl => { pl with stats_sixes := pl.stats_sixes + 1 }),
        current_player_id := some pid, last_dice_roll := 6, can_roll_dice := true,
        winner_id := room.winner_id, initial_rolls_remaining := room.initial_rolls_remaining,
        solo_mode := false, solo_player_id := room.solo_player_id } 6 false pid
    dsimp only at hs
    rw [hbump] at hs
    unfold GameSession.get_player
    cases hfin : (end_turn
        { status := GameStatus.playing,
          players := update_first room.players (fun pl => decide (pl.player_id = pid)) (fun pl => { pl with stats_sixes := pl.stats_sixes + 1 }),
          current_player_id := some pid, last_dice_roll := 6, can_roll_dice := true,
          winner_id := room.winner_id, initial_rolls_remaining := room.initial_rolls_remaining,
          solo_mode := false, solo_player_id := room.solo_player_id } 6 false).players.find? (fun p => decide (p.player_id = pid)) with
    | none => rw [hfin] at hs; simp at hs
    | some p2 =>
      rw [hfin] at hs
      refine ⟨p2, rfl, ?_⟩
      have : player_six_sig p2 = player_six_sig { player with
        stats_sixes := player.stats_sixes + 1 } := by simpa using hs
      exact congrArg Prod.snd this
  · simp only [if_neg hv]
    norm_num
    unfold GameSession.get_player
    dsimp only
    rw [hbump]
    exact ⟨_, rfl, rfl⟩

/-- Witness for `C10_six_always_counted`: player 1 rolls a 6 in a fresh
two-player room. -/
theorem C10_six_always_counted_witness :
    (handle_roll_dice sample_session 1 6).2 = none ∧
    ∃ p2, (handle_roll_dice sample_session 1 6).1.get_player 1 = some p2 ∧
      p2.stats_sixes = (mk_fresh_player 1 Color.red).stats_sixes + 1 :=
  C10_six_always_counted sample_session 1 (mk_fresh_player 1 Color.red) rfl rfl rfl
    (by decide) rfl

/-- C3: evaluating the `leave_lobby` handler on a Playing three-player room
whose current player leaves: the room stays Playing with two players, but the
current-player reference still names the departed player, violating the
invariant (and the eviction path `remove_dead_player` would have advanced the
turn instead). -/
theorem C3_leave_breaks_invariant :
    (handle_leave_lobby sample_session3 1).status = GameStatus.playing ∧
    (handle_leave_lobby sample_session3 1).current_player_id = some 1 ∧
    (handle_leave_lobby sample_session3 1).get_player 1 = none ∧
    (handle_leave_lobby sample_session3 1).players.length = 2 ∧
    remove_dead_player sample_session3 1 ≠ handle_leave_lobby sample_session3 1 ∧
    (remove_dead_player sample_session3 1).current_player_id = some 2 := by
  decide

/-- The lane branch of `can_move_piece`, written out. -/
theorem can_move_piece_lane (player : Player) (piece : Piece) (dice cur : Int) (c : Color)
    (hc : player.color = some c) (hs : piece.status = PieceStatus.home_lane)
    (hp : piece.position = some cur) :
    can_move_piece player piece dice =
      (if cur + dice > 3 then false
       else if cur + dice = 3 then true
       else if (get_own_piece_at_position player PieceStatus.home_lane (cur + dice)).isSome then
         false
       else true) := by
  simp only [can_move_piece, hs, hc, hp, LANE_LEN]
  norm_num
  rw [if_neg (show ¬ (PieceStatus.home_lane = PieceStatus.home) by decide),
    if_neg (show ¬ (PieceStatus.home_lane = PieceStatus.track) by decide)]
  simp

/-- The home branch of `can_move_piece`, written out. -/
theorem can_move_piece_home (player : Player) (piece : Piece) (dice : Int) (c : Color)
    (hc : player.color = some c) (hs : piece.status = PieceStatus.home) :
    can_move_piece player piece dice =
      (decide (dice = 6) &&
        (get_own_piece_at_position player PieceStatus.track (START_INDEX c)).isNone) := by
  simp only [can_move_piece, hs, hc]
  norm_num
  intro _ _
  decide

/-- The track branch of `can_move_piece`, written out. -/
theorem can_move_piece_track (player : Player) (piece : Piece) (dice cur : Int) (c : Color)
    (hc : player.color = some c) (hs : piece.status = PieceStatus.track)
    (hp : piece.position = some cur) :
    can_move_piece player piece dice =
      (if dice > steps_to_entry c cur then
        (!decide (dice - steps_to_entry c cur - 1 ≥ 4) &&
          (get_own_piece_at_position player PieceStatus.home_lane
            (dice - steps_to_entry c cur - 1)).isNone)
      else
        (get_own_piece_at_position player PieceStatus.track ((cur + dice) % TRACK_LEN)).isNone)
    := by
  simp only [can_move_piece, hs, hc, hp, steps_to_entry, LANE_LEN]
  norm_num
  rw [if_neg (show ¬ (PieceStatus.track = PieceStatus.home) by decide)]
  simp

/-- A `track` piece whose position is `None` is never movable. -/
theorem can_move_piece_track_none (player : Player) (piece : Piece) (d : Int) (c : Color)
    (hc : player.color = some c) (hstat : piece.status = PieceStatus.track)
    (hp : piece.position = none) : can_move_piece player piece d = false := by
  simp only [can_move_piece, hstat, hc, hp]
  rw [if_neg (show ¬ (PieceStatus.track = PieceStatus.finished) by decide)]
  try dsimp only
  rw [if_neg (show ¬ (PieceStatus.track = PieceStatus.home) by decide)]
  simp

/-- A `home_lane` piece whose position is `None` is never movable. -/
theorem can_move_piece_lane_none (player : Player) (piece : Piece) (d : Int) (c : Color)
    (hc : player.color = some c) (hstat : piece.status = PieceStatus.home_lane)
    (hp : piece.position = none) : can_move_piece player piece d = false := by
  simp only [can_move_piece, hstat, hc, hp]
  rw [if_neg (show ¬ (PieceStatus.home_lane = PieceStatus.finished) by decide)]
  try dsimp only
  rw [if_neg (show ¬ (PieceStatus.home_lane = PieceStatus.home) by decide),
    if_neg (show ¬ (PieceStatus.home_lane = PieceStatus.track) by decide)]
  simp

/-- Every branch of `move_piece` succeeds when the legality predicate holds:
the internal raises re-check conditions `can_move_piece` already rules out. -/
theorem move_piece_ok_of_can (s : GameSession) (pid pcid : Nat) (d : Int)
    (player : Player) (piece : Piece)
    (hgp : s.get_player pid = some player)
    (hfp : find_piece player pcid = some piece)
    (hcan0 : can_move_piece player piece d = true) :
    ∃ s2, move_piece s pid pcid d = Except.ok s2 := by
  cases hc : player.color with
  | none => rw [can_move_piece, hc] at hcan0; simp at hcan0
  | some c =>
    cases hstat : piece.status with
    | finished => rw [can_move_piece, hstat] at hcan0; simp at hcan0
    | home =>
      simp only [move_piece, hgp, hfp, hcan0, hc, hstat]
      norm_num
    | track =>
      cases hp : piece.position with
      | none =>
        rw [can_move_piece_track_none player piece d c hc hstat hp] at hcan0
        cases hcan0
      | some cur =>
        have hred := can_move_piece_track player piece d cur c hc hstat hp
        have hcond := hcan0
        rw [hred] at hcond
        have hSeq : steps_to_entry c cur = (ENTRY_INDEX c - cur) % TRACK_LEN := by
          unfold steps_to_entry TRACK_LEN
          omega
        simp only [move_piece, hgp, hfp, hcan0, hc, hstat, hp, LANE_LEN]
        norm_num
        rw [if_neg (show ¬ (PieceStatus.track = PieceStatus.home) by decide)]
        rw [← hSeq]
        by_cases hgt : d > steps_to_entry c cur
        · rw [if_pos hgt] at hcond
          simp only [Bool.and_eq_true, Bool.not_eq_true', decide_eq_false_iff_not,
            not_le, Option.isNone_iff_eq_none] at hcond
          obtain ⟨hA, hO⟩ := hcond
          rw [if_pos (show steps_to_entry c cur < d from hgt)]
          rw [if_neg (show ¬ ((4 : Int) ≤ d - steps_to_entry c cur - 1) by omega)]
          rw [hO]
          norm_num
        · rw [if_neg hgt] at hcond
          simp only [Option.isNone_iff_eq_none] at hcond
          rw [if_neg (show ¬ (steps_to_entry c cur < d) by omega)]
          rw [hcond]
          norm_num
    | home_lane =>
      cases hp : piece.position with
      | none =>
        rw [can_move_piece_lane_none player piece d c hc hstat hp] at hcan0
        cases hcan0
      | some cur =>
        have hred := can_move_piece_lane player piece d cur c hc hstat hp
        have hcond := hcan0
        rw [hred] at hcond
        simp only [move_piece, hgp, hfp, hcan0, hc, hstat, hp, LANE_LEN]
        norm_num
        rw [if_neg (show ¬ (PieceStatus.home_lane = PieceStatus.home) by decide),
          if_neg (show ¬ (PieceStatus.home_lane = PieceStatus.track) by decide)]
        by_cases h1 : cur + d > 3
        · rw [if_pos h1] at hcond; cases hcond
        · rw [if_neg h1] at hcond
          by_cases h2 : cur + d = 3
          · rw [if_pos h2] at hcond
            split_ifs with g1 g2
            · exfalso; omega
            · exfalso
              obtain ⟨g2a, g2b⟩ := g2
              omega
            · exact ⟨_, rfl⟩
          · rw [if_neg h2] at hcond
            by_cases hq : (get_own_piece_at_position player PieceStatus.home_lane
                (cur + d)).isSome
            · rw [if_pos hq] at hcond; cases hcond
            · have hO : get_own_piece_at_position player PieceStatus.home_lane (cur + d) =
                  none := Option.not_isSome_iff_eq_none.mp hq
              split_ifs with g1 g2
              · exfalso; omega
              · exfalso
                obtain ⟨g2a, g2b⟩ := g2
                rw [hO] at g2b
                cases g2b
              · exact ⟨_, rfl⟩

/-- The winner search only reads identities and pieces, so it is invariant
under the statistics bumps of `end_turn`. -/
theorem winner_of_isSome_congr (l l2 : List Player)
    (h : l.map player_sig = l2.map player_sig) :
    (winner_of l).isSome = (winner_of l2).isSome := by
  unfold winner_of
  have := list_find?_congr player_sig
    (fun p => decide ((p.pieces.filter (fun pc => decide (pc.status = PieceStatus.finished))).length = 4))
    (fun a b hab => by simp [player_sig_pieces hab]) l l2 h
  cases h1 : l.find? (fun p =>
      decide ((p.pieces.filter (fun pc => decide (pc.status = PieceStatus.finished))).length = 4)) with
  | none =>
    rw [h1] at this
    cases h2 : l2.find? (fun p =>
        decide ((p.pieces.filter (fun pc => decide (pc.status = PieceStatus.finished))).length = 4)) with
    | none => rfl
    | some b => rw [h2] at this; simp at this
  | some a =>
    rw [h1] at this
    cases h2 : l2.find? (fun p =>
        decide ((p.pieces.filter (fun pc => decide (pc.status = PieceStatus.finished))).length = 4)) with
    | none => rw [h2] at this; simp at this
    | some b => rfl

/-- The winner branch of `check_game_end` marks the session finished and
records the first all-finished player as the winner. -/
theorem check_game_end_some (room2 room3 : GameSession) (val : Nat)
    (hcge : check_game_end room2 = (room3, some val)) :
    room3.status = GameStatus.finished ∧
    ∃ w, winner_of room3.players = some w ∧ room3.winner_id = some w.player_id := by
  unfold check_game_end at hcge
  cases hw : winner_of room2.players with
  | none =>
    rw [hw] at hcge
    exact absurd (congrArg Prod.snd hcge) (by simp)
  | some w =>
    rw [hw] at hcge
    have h3 := congrArg Prod.fst hcge
    dsimp only at h3
    rw [← h3]
    exact ⟨rfl, w, hw, rfl⟩

/-- If `check_game_end` found no winner, the session produced by the
subsequent `end_turn` cannot contain an all-finished player either. -/
theorem no_win_path_conclusion (room2 room3 s2 : GameSession)
    (hcge : check_game_end room2 = (room3, none))
    (hs2 : end_turn room3 room3.last_dice_roll true = s2)
    (hex : ∃ p ∈ s2.players,
      (p.pieces.filter (fun pc => decide (pc.status = PieceStatus.finished))).length = 4) :
    False := by
  unfold check_game_end at hcge
  cases hw : winner_of room2.players with
  | some w =>
    rw [hw] at hcge
    exact absurd (congrArg Prod.snd hcge) (by simp)
  | none =>
    rw [hw] at hcge
    have h3 : room2 = room3 := congrArg Prod.fst hcge
    obtain ⟨p, hmem, hcount⟩ := hex
    have hsome : (winner_of s2.players).isSome := by
      unfold winner_of
      rw [List.find?_isSome]
      exact ⟨p, hmem, by simp [hcount]⟩
    rw [← hs2] at hsome
    rw [winner_of_isSome_congr (end_turn room3 room3.last_dice_roll true).players
      room2.players (by rw [end_turn_players_sig, h3])] at hsome
    rw [hw] at hsome
    cases hsome

/-- C6: the win check runs after every successful move — the moment a player
has all 4 pieces finished, the room's status is Finished and that player (the
first such, found by `check_game_end`) is recorded as the winner; and once a
room is not Playing (in particular Finished), every `roll_dice` request is
rejected with an error reply and the room state is returned unchanged. -/
theorem C6_win_ends_game_and_blocks_rolls :
    (∀ (s : GameSession) (pid : Nat) (d : Int), s.status = GameStatus.finished →
      handle_roll_dice s pid d = (s, some "Hra neběží")) ∧
    (∀ (s s2 : GameSession) (pid pcid : Nat),
      handle_move_piece s pid pcid = (s2, none) →
      (∃ p ∈ s2.players,
        (p.pieces.filter (fun pc => decide (pc.status = PieceStatus.finished))).length = 4) →
      s2.status = GameStatus.finished ∧
      ∃ w, winner_of s2.players = some w ∧ s2.winner_id = some w.player_id) := by
  constructor
  · intro s pid d h
    unfold handle_roll_dice
    rw [if_pos (by rw [h]; decide)]
  · intro s s2 pid pcid hrun hex
    unfold handle_move_piece at hrun
    repeat' (first | (split_ifs at hrun) | (split at hrun) | (dsimp only at hrun))
    all_goals try (have hsnd := congrArg Prod.snd hrun; simp at hsnd)
    all_goals (
      rename_i heq
      have hfst : _ = s2 := congrArg Prod.fst hrun
      subst hfst
      first
        | exact check_game_end_some _ _ _ heq
        | exact (no_win_path_conclusion _ _ _ heq rfl hex).elim)

/-- Witness for `C6_win_ends_game_and_blocks_rolls`: in `winning_session`
player 1 has three finished pieces and one lane piece at index 1 with stored
dice 2; moving it finishes the game, and the finished room rejects a roll. -/
theorem C6_win_ends_game_and_blocks_rolls_witness :
    handle_roll_dice finished_session 1 3 = (finished_session, some "Hra neběží") ∧
    ((handle_move_piece winning_session 1 11).1.status = GameStatus.finished ∧
      ∃ w, winner_of (handle_move_piece winning_session 1 11).1.players = some w ∧
        (handle_move_piece winning_session 1 11).1.winner_id = some w.player_id) := by
  constructor
  · exact C6_win_ends_game_and_blocks_rolls.1 finished_session 1 3 rfl
  · exact C6_win_ends_game_and_blocks_rolls.2 winning_session
      (handle_move_piece winning_session 1 11).1 1 11 (by decide) (by decide)

theorem steps_to_entry_norm (c : Color) (cur : Int) :
    steps_to_entry c cur = (ENTRY_INDEX c - cur) % TRACK_LEN := by
  unfold steps_to_entry TRACK_LEN
  omega

/-- The track→track branch of `move_piece`, written out: the mover piece goes
to `(cur + d) % TRACK_LEN`, then the capture search runs (skipping the mover),
then the mover statistics are bumped. -/
theorem move_piece_track_run (s : GameSession) (pid pcid : Nat) (d : Int)
    (player : Player) (piece : Piece) (cur : Int) (c : Color)
    (hgp : s.get_player pid = some player)
    (hfp : find_piece player pcid = some piece)
    (hc : player.color = some c)
    (hs : piece.status = PieceStatus.track)
    (hp : piece.position = some cur)
    (hle : d ≤ steps_to_entry c cur)
    (hcan : can_move_piece player piece d = true) :
    move_piece s pid pcid d =
      Except.ok { s with
        players := track_run_result s.players pid pcid ((cur + d) % TRACK_LEN) } := by
  have hO : get_own_piece_at_position player PieceStatus.track ((cur + d) % TRACK_LEN) = none := by
    have hred := can_move_piece_track player piece d cur c hc hs hp
    rw [hred, if_neg (not_lt.mpr hle)] at hcan
    simpa [Option.isNone_iff_eq_none] using hcan
  have hSeq := steps_to_entry_norm c cur
  simp only [move_piece, hgp, hfp, hcan, hc, hs, hp, track_run_result, track_move_update,
    track_stats_update]
  norm_num
  rw [if_neg (show ¬ (PieceStatus.track = PieceStatus.home) by decide)]
  rw [← hSeq]
  rw [if_neg (show ¬ (steps_to_entry c cur < d) from not_lt.mpr hle)]
  rw [hO]
  norm_num

theorem get_player_update_val (ps : List Player) (pid : Nat) (f : Player → Player)
    (hf : ∀ p, (f p).player_id = p.player_id) (player : Player)
    (hfind : ps.find? (fun p => decide (p.player_id = pid)) = some player) :
    (update_first ps (fun p => decide (p.player_id = pid)) f).find?
      (fun p => decide (p.player_id = pid)) = some (f player) := by
  rw [get_player_update_first_same ps pid f hf, hfind]
  rfl

theorem track_move_update_mover (ps : List Player) (pid pcid : Nat) (dest : Int)
    (player : Player)
    (hfind : ps.find? (fun p => decide (p.player_id = pid)) = some player) :
    (track_move_update ps pid pcid dest).find? (fun p => decide (p.player_id = pid)) =
      some { player with pieces := update_first player.pieces (fun pc => decide (pc.piece_id = pcid)) (fun pc => { pc with position := some dest }) } := by
  unfold track_move_update
  exact get_player_update_val ps pid
    (fun pl => { pl with pieces := update_first pl.pieces (fun pc => decide (pc.piece_id = pcid)) (fun pc => { pc with position := some dest }) })
    (fun p => rfl) player hfind

theorem track_run_result_mover (ps : List Player) (pid pcid : Nat) (dest : Int) (player : Player)
    (hfind : ps.find? (fun p => decide (p.player_id = pid)) = some player) :
    (track_run_result ps pid pcid dest).find? (fun p => decide (p.player_id = pid)) =
      some (track_run_mover player pcid dest
        (find_captured (track_move_update ps pid pcid dest) pid dest).isSome) := by
  have hP1 := track_move_update_mover ps pid pcid dest player hfind
  unfold track_run_result track_stats_update
  cases hcap : find_captured (track_move_update ps pid pcid dest) pid dest with
  | none =>
    dsimp only
    exact get_player_update_val _ pid
      (fun pl => { pl with stats_captures := pl.stats_captures + (if (none : Option (Nat × Piece)).isSome then 1 else 0), stats_moves := pl.stats_moves + 1 })
      (fun p => rfl) _ hP1
  | some pr =>
    dsimp only
    have hP2 : (apply_capture (track_move_update ps pid pcid dest) pid dest).find?
        (fun p => decide (p.player_id = pid)) =
        some { player with pieces := update_first player.pieces (fun pc => decide (pc.piece_id = pcid)) (fun pc => { pc with position := some dest }) } := by
      rw [apply_capture_mover]
      exact hP1
    exact get_player_update_val _ pid
      (fun pl => { pl with stats_captures := pl.stats_captures + (if (some pr : Option (Nat × Piece)).isSome then 1 else 0), stats_moves := pl.stats_moves + 1 })
      (fun p => rfl) _ hP2

/-- The track→lane branch of `move_piece`, written out. -/
theorem move_piece_lane_entry_run (s : GameSession) (pid pcid : Nat) (d : Int)
    (player : Player) (piece : Piece) (cur : Int) (c : Color)
    (hgp : s.get_player pid = some player)
    (hfp : find_piece player pcid = some piece)
    (hc : player.color = some c)
    (hs : piece.status = PieceStatus.track)
    (hp : piece.position = some cur)
    (hgt : d > steps_to_entry c cur)
    (hcan : can_move_piece player piece d = true) :
    move_piece s pid pcid d =
      Except.ok { s with
        players := lane_entry_update s.players pid pcid (d - steps_to_entry c cur - 1) } := by
  have hred := can_move_piece_track player piece d cur c hc hs hp
  have hcond := hcan
  rw [hred, if_pos hgt] at hcond
  simp only [Bool.and_eq_true, Bool.not_eq_true', decide_eq_false_iff_not, not_le,
    Option.isNone_iff_eq_none] at hcond
  obtain ⟨hlt, hO⟩ := hcond
  have hSeq := steps_to_entry_norm c cur
  simp only [move_piece, hgp, hfp, hcan, hc, hs, hp, LANE_LEN, lane_entry_update]
  norm_num
  rw [if_neg (show ¬ (PieceStatus.track = PieceStatus.home) by decide)]
  rw [← hSeq]
  rw [if_pos (show steps_to_entry c cur < d from hgt)]
  rw [if_neg (show ¬ ((4 : Int) ≤ d - steps_to_entry c cur - 1) by omega)]
  rw [hO]
  norm_num

theorem lane_entry_update_mover (ps : List Player) (pid pcid : Nat) (lane_step : Int)
    (player : Player)
    (hfind : ps.find? (fun p => decide (p.player_id = pid)) = some player) :
    (lane_entry_update ps pid pcid lane_step).find? (fun p => decide (p.player_id = pid)) =
      some (lane_entry_mover player pcid lane_step) := by
  unfold lane_entry_update lane_entry_mover
  exact get_player_update_val ps pid
    (fun pl => { pl with pieces := update_first pl.pieces (fun pc => decide (pc.piece_id = pcid)) (fun pc => if lane_step = LANE_LEN - 1 then { pc with status := PieceStatus.finished, position := none } else { pc with status := PieceStatus.home_lane, position := some lane_step }) })
    (fun p => rfl) player hfind

/-- C8: for a piece on the Track with `stepsToEntry = (entry − cur + 52) mod
52`, a lane entry is triggered exactly when `dice > stepsToEntry`; the
resulting lane index is `dice − stepsToEntry − 1`; the move is illegal iff
that index is ≥ 4 or the mover's own piece occupies it; lane index 3 places
the piece directly into Finished with no intermediate Lane stop, while a
smaller index lands in the Lane; and when `dice ≤ stepsToEntry` no lane entry
happens — the piece stays on the Track. -/
theorem C8_track_lane_entry (s : GameSession) (pid pcid : Nat) (d : Int)
    (player : Player) (piece : Piece) (cur : Int) (c : Color)
    (hgp : s.get_player pid = some player)
    (hfp : find_piece player pcid = some piece)
    (hc : player.color = some c)
    (hs : piece.status = PieceStatus.track)
    (hp : piece.position = some cur) :
    (d > steps_to_entry c cur →
      (can_move_piece player piece d = true ↔
        (d - steps_to_entry c cur - 1 < 4 ∧
          get_own_piece_at_position player PieceStatus.home_lane
            (d - steps_to_entry c cur - 1) = none))) ∧
    (d > steps_to_entry c cur → can_move_piece player piece d = true →
      ∃ s2, move_piece s pid pcid d = Except.ok s2 ∧
        s2.get_player pid = some (lane_entry_mover player pcid (d - steps_to_entry c cur - 1)) ∧
        (d - steps_to_entry c cur - 1 = 3 →
          find_piece (lane_entry_mover player pcid (d - steps_to_entry c cur - 1)) pcid =
            some { piece with status := PieceStatus.finished, position := none }) ∧
        (d - steps_to_entry c cur - 1 ≠ 3 →
          find_piece (lane_entry_mover player pcid (d - steps_to_entry c cur - 1)) pcid =
            some { piece with status := PieceStatus.home_lane,
                              position := some (d - steps_to_entry c cur - 1) })) ∧
    (d ≤ steps_to_entry c cur → can_move_piece player piece d = true →
      ∃ s2 p2 pc2, move_piece s pid pcid d = Except.ok s2 ∧ s2.get_player pid = some p2 ∧
        find_piece p2 pcid = some pc2 ∧ pc2.status = PieceStatus.track ∧
        pc2.position = some ((cur + d) % TRACK_LEN)) := by
  refine ⟨?_, ?_, ?_⟩
  · intro hgt
    have hred := can_move_piece_track player piece d cur c hc hs hp
    rw [hred, if_pos hgt]
    simp only [Bool.and_eq_true, Bool.not_eq_true', decide_eq_false_iff_not, not_le,
      Option.isNone_iff_eq_none, ge_iff_le]
  · intro hgt hcan
    have hrun := move_piece_lane_entry_run s pid pcid d player piece cur c hgp hfp hc hs hp
      hgt hcan
    refine ⟨_, hrun, ?_, ?_, ?_⟩
    · show GameSession.get_player _ pid = _
      unfold GameSession.get_player
      dsimp only
      exact lane_entry_update_mover s.players pid pcid (d - steps_to_entry c cur - 1) player hgp
    · intro h3
      unfold lane_entry_mover find_piece
      dsimp only
      rw [find_piece_update_first_same player.pieces pcid _ (fun pc => by
        split <;> rfl)]
      rw [show player.pieces.find? (fun pc => decide (pc.piece_id = pcid)) = some piece from hfp]
      simp only [Option.map_some, Option.map_some', Option.map]
      rw [if_pos (show d - steps_to_entry c cur - 1 = LANE_LEN - 1 by rw [h3]; decide)]
    · intro h3
      unfold lane_entry_mover find_piece
      dsimp only
      rw [find_piece_update_first_same player.pieces pcid _ (fun pc => by
        split <;> rfl)]
      rw [show player.pieces.find? (fun pc => decide (pc.piece_id = pcid)) = some piece from hfp]
      simp only [Option.map_some, Option.map_some', Option.map]
      rw [if_neg (show ¬ (d - steps_to_entry c cur - 1 = LANE_LEN - 1) by
        unfold LANE_LEN
        omega)]
  · intro hle hcan
    have hrun := move_piece_track_run s pid pcid d player piece cur c hgp hfp hc hs hp hle hcan
    refine ⟨_,
      track_run_mover player pcid ((cur + d) % TRACK_LEN)
        (find_captured (track_move_update s.players pid pcid ((cur + d) % TRACK_LEN)) pid
          ((cur + d) % TRACK_LEN)).isSome,
      { piece with position := some ((cur + d) % TRACK_LEN) }, hrun, ?_, ?_, ?_, rfl⟩
    · show GameSession.get_player _ pid = _
      unfold GameSession.get_player
      dsimp only
      exact track_run_result_mover s.players pid pcid ((cur + d) % TRACK_LEN) player hgp
    · unfold track_run_mover find_piece
      dsimp only
      rw [find_piece_update_first_same player.pieces pcid
        (fun pc => { pc with position := some ((cur + d) % TRACK_LEN) }) (fun pc => rfl)]
      rw [show player.pieces.find? (fun pc => decide (pc.piece_id = pcid)) = some piece from hfp]
      rfl
    · show ({ piece with position := some ((cur + d) % TRACK_LEN) } : Piece).status =
        PieceStatus.track
      rw [show ({ piece with position := some ((cur + d) % TRACK_LEN) } : Piece).status =
        piece.status from rfl, hs]

/-- C5: with the player and piece the handler passes, the mutating move
operation fails — with the IllegalMove error reply of the source — exactly
when the pure legality predicate is false; the failure is the first guard of
`move_piece`, raised before any mutation; and on an illegal stored dice value
the `move_piece` handler replies with an error and returns the room
unchanged. -/
theorem C5_move_fails_iff_illegal (s : GameSession) (pid pcid : Nat) (d : Int)
    (player : Player) (piece : Piece)
    (hgp : s.get_player pid = some player)
    (hfp : find_piece player pcid = some piece) :
    ((∃ s2, move_piece s pid pcid d = Except.ok s2) ↔ can_move_piece player piece d = true) ∧
    (can_move_piece player piece d = false →
      move_piece s pid pcid d = Except.error "Nelze pohnout figurkou") ∧
    (s.solo_mode = false → can_move_piece player piece s.last_dice_roll = false →
      ∃ msg, handle_move_piece s pid pcid = (s, some msg)) := by
  have herr : ∀ dd, can_move_piece player piece dd = false →
      move_piece s pid pcid dd = Except.error "Nelze pohnout figurkou" := by
    intro dd h
    simp only [move_piece, hgp, hfp, h]
    norm_num
  refine ⟨⟨?_, ?_⟩, herr d, ?_⟩
  · rintro ⟨s2, hs2⟩
    by_contra hn
    rw [Bool.not_eq_true] at hn
    rw [herr d hn] at hs2
    cases hs2
  · intro hcan
    exact move_piece_ok_of_can s pid pcid d player piece hgp hfp hcan
  · intro hsolo hno
    unfold handle_move_piece
    by_cases g1 : s.status ≠ GameStatus.playing
    · rw [if_pos g1]
      exact ⟨_, rfl⟩
    · rw [if_neg g1]
      rw [if_neg (show ¬ (s.solo_mode = true ∧ s.solo_player_id ≠ some pid) by simp [hsolo])]
      by_cases g2 : ¬ s.solo_mode = true ∧ s.current_player_id ≠ some pid
      · rw [if_pos g2]
        exact ⟨_, rfl⟩
      · rw [if_neg g2]
        by_cases g3 : s.can_roll_dice = true
        · rw [if_pos g3]
          exact ⟨_, rfl⟩
        · rw [if_neg g3]
          cases hcc : s.get_current_player with
          | none => exact ⟨_, rfl⟩
          | some current_player =>
            dsimp only
            simp only [hsolo]
            norm_num
            rw [hgp]
            dsimp only
            rw [hfp]
            dsimp only
            rw [if_pos hno]
            exact ⟨_, rfl⟩

/-- Witness for `C5_move_fails_iff_illegal`: a home piece with dice 1 in a
fresh room. -/
theorem C5_move_fails_iff_illegal_witness :
    ((∃ s2, move_piece sample_session 1 10 1 = Except.ok s2) ↔
      can_move_piece (mk_fresh_player 1 Color.red) (mk_home_piece 1 0) 1 = true) ∧
    (can_move_piece (mk_fresh_player 1 Color.red) (mk_home_piece 1 0) 1 = false →
      move_piece sample_session 1 10 1 = Except.error "Nelze pohnout figurkou") ∧
    (sample_session.solo_mode = false →
      can_move_piece (mk_fresh_player 1 Color.red) (mk_home_piece 1 0)
        sample_session.last_dice_roll = false →
      ∃ msg, handle_move_piece sample_session 1 10 = (sample_session, some msg)) :=
  C5_move_fails_iff_illegal sample_session 1 10 1 (mk_fresh_player 1 Color.red)
    (mk_home_piece 1 0) (by decide) (by decide)

/-- C4 counterexample: a lane piece at index 0 with dice 1 satisfies
`current + dice ≤ 3`, yet the move is illegal because the player owns a piece
at lane index 1 — refuting the claimed equivalence `legal iff current + dice ≤
3`. -/
theorem C4_counterexample :
    mk_lane_piece 1 0 0 ∈ lane_player.pieces ∧
    (0 : Int) + 1 ≤ 3 ∧
    can_move_piece lane_player (mk_lane_piece 1 0 0) 1 = false := by
  decide

/-- C4 (amended): for a piece in a Lane with dice 1–6, the move is legal iff
`current + dice ≤ 3` and, when the target is short of index 3, the target lane
cell is not occupied by one of the mover's own pieces; a result exceeding 3 is
always illegal with no clamping; and landing exactly on lane index 3
transitions the piece to Finished. -/
theorem C4_lane_move_rules (player : Player) (piece : Piece) (dice cur : Int) (c : Color)
    (hc : player.color = some c) (hs : piece.status = PieceStatus.home_lane)
    (hp : piece.position = some cur) (hd1 : 1 ≤ dice) (hd6 : dice ≤ 6) :
    (can_move_piece player piece dice = true ↔
      (cur + dice ≤ 3 ∧ (cur + dice = 3 ∨
        get_own_piece_at_position player PieceStatus.home_lane (cur + dice) = none))) ∧
    (3 < cur + dice → can_move_piece player piece dice = false) ∧
    (∀ (s : GameSession) (pid pcid : Nat),
      s.get_player pid = some player → find_piece player pcid = some piece →
      cur + dice = 3 →
      ∃ s' p', move_piece s pid pcid dice = Except.ok s' ∧
        s'.get_player pid = some p' ∧
        find_piece p' pcid =
          some { piece with status := PieceStatus.finished, position := none }) := by
  have hb := can_move_piece_lane player piece dice cur c hc hs hp
  refine ⟨?_, ?_, ?_⟩
  · rw [hb]
    split_ifs with h1 h2 h3
    · simp only [Bool.false_eq_true, false_iff, not_and]
      intro hle
      omega
    · simp only [true_iff]
      exact ⟨by omega, Or.inl h2⟩
    · simp only [Bool.false_eq_true, false_iff, not_and]
      intro _ hcon
      rcases hcon with h4 | h4
      · exact h2 h4
      · rw [h4] at h3
        simp at h3
    · simp only [true_iff]
      exact ⟨by omega, Or.inr (by
        cases hval : get_own_piece_at_position player PieceStatus.home_lane (cur + dice) with
        | none => rfl
        | some v => rw [hval] at h3; simp at h3)⟩
  · intro h
    rw [hb, if_pos h]
  · intro s pid pcid hgp hfp h3
    have hcan : can_move_piece player piece dice = true := by
      rw [hb, if_neg (by omega), if_pos h3]
    have hrun : move_piece s pid pcid dice =
        Except.ok { s with players := lane_finish_update s.players pid pcid } := by
      simp only [move_piece, hgp, hfp, hcan, hc, hs, hp, h3, LANE_LEN, lane_finish_update,
        lane_finish_player]
      norm_num
      rw [if_neg (show ¬ (PieceStatus.home_lane = PieceStatus.home) by decide)]
      rw [if_neg (show ¬ (PieceStatus.home_lane = PieceStatus.track) by decide)]
    refine ⟨_, lane_finish_player player pcid, hrun, ?_, ?_⟩
    · show ({ s with players := lane_finish_update s.players pid pcid } : GameSession).get_player
        pid = _
      unfold GameSession.get_player lane_finish_update
      simp only
      rw [get_player_update_first_same s.players pid (fun pl => lane_finish_player pl pcid)
        (fun p => rfl)]
      rw [show s.players.find? (fun p => decide (p.player_id = pid)) = some player from hgp]
      rfl
    · unfold find_piece lane_finish_player
      simp only
      rw [find_piece_update_first_same player.pieces pcid
        (fun pc => { pc with status := PieceStatus.finished, position := none }) (fun pc => rfl)]
      rw [show player.pieces.find? (fun pc => decide (pc.piece_id = pcid)) = some piece from hfp]
      rfl

/-- Witness for `C4_lane_move_rules` at a concrete input: red lane piece at
index 1 in a one-entry room, dice 2. -/
theorem C4_lane_move_rules_witness :
    can_move_piece lane_player (mk_lane_piece 1 1 1) 2 = true ∧
    (∃ s' p',
      move_piece { sample_session with
        players := [lane_player, mk_fresh_player 2 Color.blue] } 1 11 2 = Except.ok s' ∧
      s'.get_player 1 = some p' ∧
      find_piece p' 11 =
        some { mk_lane_piece 1 1 1 with status := PieceStatus.finished, position := none }) := by
  have h := C4_lane_move_rules lane_player (mk_lane_piece 1 1 1) 2 1 Color.red
    (by decide) (by decide) (by decide) (by decide) (by decide)
  refine ⟨?_, ?_⟩
  · exact h.1.mpr (by decide)
  · exact h.2.2 { sample_session with players := [lane_player, mk_fresh_player 2 Color.blue] }
      1 11 (by decide) (by decide) (by decide)

/-- Witness for `C8_track_lane_entry`: red track piece at 48, three steps from
its entry, rolls a 6 and enters the lane at index 2. -/
theorem C8_track_lane_entry_witness :
    (can_move_piece track_player (mk_track_piece 1 0 48) 6 = true ↔
      (6 - steps_to_entry Color.red 48 - 1 < 4 ∧
        get_own_piece_at_position track_player PieceStatus.home_lane
          (6 - steps_to_entry Color.red 48 - 1) = none)) ∧
    (∃ s2, move_piece track_session 1 10 6 = Except.ok s2 ∧
      s2.get_player 1 =
        some (lane_entry_mover track_player 10 (6 - steps_to_entry Color.red 48 - 1)) ∧
      find_piece (lane_entry_mover track_player 10 (6 - steps_to_entry Color.red 48 - 1)) 10 =
        some { mk_track_piece 1 0 48 with
               status := PieceStatus.home_lane,
               position := some (6 - steps_to_entry Color.red 48 - 1) }) := by
  have h := C8_track_lane_entry track_session 1 10 6 track_player (mk_track_piece 1 0 48) 48
    Color.red (by decide) (by decide) (by decide) (by decide) (by decide)
  have hgt : (6 : Int) > steps_to_entry Color.red 48 := by decide
  refine ⟨h.1 hgt, ?_⟩
  obtain ⟨s2, hok, hget, hfin, hne⟩ := h.2.1 hgt (by decide)
  exact ⟨s2, hok, hget, hne (by decide)⟩

/-- The statistics bump of the track branch never touches a player other than
the mover. -/
theorem track_stats_update_other (ps : List Player) (pid : Nat) (b : Bool) (k : Nat)
    (hk : k ≠ pid) :
    (track_stats_update ps pid b).find? (fun p => decide (p.player_id = k)) =
      ps.find? (fun p => decide (p.player_id = k)) := by
  unfold track_stats_update
  apply update_first_find?_untouched
  intro a ha
  have hq : a.player_id = pid := by simpa using List.find?_some ha
  constructor
  · simp [hq, Ne.symm hk]
  · simp [hq, Ne.symm hk]

/-- After a track→track `move_piece` that captures `(ow, capc)` (searched, as
the source does, on the list with the mover already moved — which agrees with
the original list), the owner `ow` holds `capc` back at its home slot. -/
theorem track_run_result_owner (ps : List Player) (pid pcid : Nat) (dest : Int)
    (ow : Nat) (capc : Piece)
    (hnd : (ps.map Player.player_id).Nodup)
    (hcap : find_captured ps pid dest = some (ow, capc)) :
    ∃ ow2, (track_run_result ps pid pcid dest).find? (fun p => decide (p.player_id = ow)) =
        some ow2 ∧
      { capc with status := PieceStatus.home, position := some capc.home_position } ∈
        ow2.pieces := by
  have hcomm : find_captured (track_move_update ps pid pcid dest) pid dest =
      find_captured ps pid dest := by
    unfold track_move_update
    exact find_captured_update_mover ps pid dest
      (fun pl => { pl with pieces := update_first pl.pieces (fun pc => decide (pc.piece_id = pcid)) (fun pc => { pc with position := some dest }) })
      (fun p => rfl)
  have hcap1 : find_captured (track_move_update ps pid pcid dest) pid dest = some (ow, capc) :=
    hcomm.trans hcap
  obtain ⟨owner, hf, howid, howne, hfot⟩ :=
    find_captured_eq (track_move_update ps pid pcid dest) pid dest ow capc hcap1
  have hnd1 : ((track_move_update ps pid pcid dest).map Player.player_id).Nodup := by
    unfold track_move_update
    rw [update_first_map_congr (fun pl => decide (pl.player_id = pid))
      (fun pl => { pl with pieces := update_first pl.pieces (fun pc => decide (pc.piece_id = pcid)) (fun pc => { pc with position := some dest }) })
      Player.player_id (fun a => rfl) ps]
    exact hnd
  have hown := apply_capture_owner (track_move_update ps pid pcid dest) pid dest hnd1 owner hf
  unfold track_run_result
  cases hcm : find_captured (track_move_update ps pid pcid dest) pid dest with
  | none =>
    rw [hcap1] at hcm
    cases hcm
  | some pr =>
    dsimp only
    refine ⟨capture_player_update owner dest, ?_, ?_⟩
    · rw [track_stats_update_other _ pid _ ow howne]
      rw [← howid]
      exact hown
    · unfold capture_player_update
      dsimp only
      have hfot2 : owner.pieces.find?
          (fun pc => decide (pc.status = PieceStatus.track ∧ pc.position = some dest)) =
          some capc := hfot
      exact update_first_mem
        (fun pc => decide (pc.status = PieceStatus.track ∧ pc.position = some dest))
        (fun pc => { pc with status := PieceStatus.home, position := some pc.home_position })
        owner.pieces capc hfot2

/-- C7: for a track→track move (dice within `stepsToEntry`), the destination
is `(current + dice) mod 52`; the move is legal iff the destination does not
hold one of the mover's own pieces; when an opponent's piece stands at the
destination it is captured — returned to its own fixed home slot — and the
mover's capture counter increments by 1; with no opponent there the capture
counter is unchanged. -/
theorem C7_track_track_move (s : GameSession) (pid pcid : Nat) (d : Int)
    (player : Player) (piece : Piece) (cur : Int) (c : Color)
    (hgp : s.get_player pid = some player)
    (hfp : find_piece player pcid = some piece)
    (hc : player.color = some c)
    (hs : piece.status = PieceStatus.track)
    (hp : piece.position = some cur)
    (hnd : (s.players.map Player.player_id).Nodup)
    (hle : d ≤ steps_to_entry c cur) :
    (can_move_piece player piece d = true ↔
      get_own_piece_at_position player PieceStatus.track ((cur + d) % TRACK_LEN) = none) ∧
    (can_move_piece player piece d = true →
      ∃ s2 p2, move_piece s pid pcid d = Except.ok s2 ∧
        s2.get_player pid = some p2 ∧
        find_piece p2 pcid = some { piece with position := some ((cur + d) % TRACK_LEN) } ∧
        (∀ ow capc, find_captured s.players pid ((cur + d) % TRACK_LEN) = some (ow, capc) →
          p2.stats_captures = player.stats_captures + 1 ∧
          ∃ ow2, s2.get_player ow = some ow2 ∧
            { capc with status := PieceStatus.home,
                        position := some capc.home_position } ∈ ow2.pieces) ∧
        (find_captured s.players pid ((cur + d) % TRACK_LEN) = none →
          p2.stats_captures = player.stats_captures)) := by
  have hcomm : find_captured (track_move_update s.players pid pcid ((cur + d) % TRACK_LEN)) pid
      ((cur + d) % TRACK_LEN) = find_captured s.players pid ((cur + d) % TRACK_LEN) := by
    unfold track_move_update
    exact find_captured_update_mover s.players pid ((cur + d) % TRACK_LEN)
      (fun pl => { pl with pieces := update_first pl.pieces (fun pc => decide (pc.piece_id = pcid)) (fun pc => { pc with position := some ((cur + d) % TRACK_LEN) }) })
      (fun p => rfl)
  refine ⟨?_, ?_⟩
  · rw [can_move_piece_track player piece d cur c hc hs hp, if_neg (not_lt.mpr hle)]
    simp [Option.isNone_iff_eq_none]
  · intro hcan
    have hrun := move_piece_track_run s pid pcid d player piece cur c hgp hfp hc hs hp hle hcan
    refine ⟨_, track_run_mover player pcid ((cur + d) % TRACK_LEN)
        (find_captured (track_move_update s.players pid pcid ((cur + d) % TRACK_LEN)) pid
          ((cur + d) % TRACK_LEN)).isSome, hrun, ?_, ?_, ?_, ?_⟩
    · show GameSession.get_player _ pid = _
      unfold GameSession.get_player
      dsimp only
      exact track_run_result_mover s.players pid pcid ((cur + d) % TRACK_LEN) player hgp
    · unfold track_run_mover find_piece
      dsimp only
      rw [find_piece_update_first_same player.pieces pcid
        (fun pc => { pc with position := some ((cur + d) % TRACK_LEN) }) (fun pc => rfl)]
      rw [show player.pieces.find? (fun pc => decide (pc.piece_id = pcid)) = some piece from hfp]
      rfl
    · intro ow capc hcap
      constructor
      · unfold track_run_mover
        dsimp only
        rw [hcomm, hcap]
        rfl
      · obtain ⟨ow2, how, hmem⟩ := track_run_result_owner s.players pid pcid
          ((cur + d) % TRACK_LEN) ow capc hnd hcap
        refine ⟨ow2, ?_, hmem⟩
        show GameSession.get_player _ ow = _
        unfold GameSession.get_player
        dsimp only
        exact how
    · intro hnone
      unfold track_run_mover
      dsimp only
      rw [hcomm, hnone]
      rfl

/-- Witness for `C7_track_track_move`: red piece at 48 moves 2 to 50, where
the blue piece stands; the blue piece goes home and red's capture counter
increments. -/
theorem C7_track_track_move_witness :
    (can_move_piece track_player (mk_track_piece 1 0 48) 2 = true ↔
      get_own_piece_at_position track_player PieceStatus.track (((48 : Int) + 2) % TRACK_LEN) =
        none) ∧
    (∃ s2 p2, move_piece capture_session 1 10 2 = Except.ok s2 ∧
      s2.get_player 1 = some p2 ∧
      find_piece p2 10 =
        some { mk_track_piece 1 0 48 with position := some (((48 : Int) + 2) % TRACK_LEN) } ∧
      p2.stats_captures = track_player.stats_captures + 1 ∧
      ∃ ow2, s2.get_player 2 = some ow2 ∧
        { mk_track_piece 2 0 50 with
          status := PieceStatus.home,
          position := some (mk_track_piece 2 0 50).home_position } ∈ ow2.pieces) := by
  have h := C7_track_track_move capture_session 1 10 2 track_player (mk_track_piece 1 0 48) 48
    Color.red (by decide) (by decide) (by decide) (by decide) (by decide) (by decide) (by decide)
  refine ⟨h.1, ?_⟩
  obtain ⟨s2, p2, hok, hget, hfind, hcapc, hnone⟩ := h.2 (by decide)
  obtain ⟨hstats, ow2, how, hmem⟩ := hcapc 2 (mk_track_piece 2 0 50) (by decide)
  exact ⟨s2, p2, hok, hget, hfind, hstats, ow2, how, hmem⟩

/-- The deployment update never touches a player other than the mover. -/
theorem deploy_update_other (ps : List Player) (pid pcid : Nat) (start_pos : Int) (b : Bool)
    (k : Nat) (hk : k ≠ pid) :
    (deploy_update ps pid pcid start_pos b).find? (fun p => decide (p.player_id = k)) =
      ps.find? (fun p => decide (p.player_id = k)) := by
  unfold deploy_update
  apply update_first_find?_untouched
  intro a ha
  have hq : a.player_id = pid := by simpa using List.find?_some ha
  constructor
  · simp [hq, Ne.symm hk]
  · simp [hq, Ne.symm hk]

/-- The home→track branch of `move_piece`, written out. -/
theorem move_piece_deploy_run (s : GameSession) (pid pcid : Nat) (d : Int)
    (player : Player) (piece : Piece) (c : Color)
    (hgp : s.get_player pid = some player)
    (hfp : find_piece player pcid = some piece)
    (hc : player.color = some c)
    (hs : piece.status = PieceStatus.home)
    (hcan : can_move_piece player piece d = true) :
    move_piece s pid pcid d =
      Except.ok { s with players := deploy_run_result s.players pid pcid (START_INDEX c) } := by
  simp only [move_piece, hgp, hfp, hcan, hc, hs, deploy_run_result, deploy_update]
  norm_num

theorem deploy_run_result_mover (ps : List Player) (pid pcid : Nat) (start_pos : Int)
    (player : Player)
    (hfind : ps.find? (fun p => decide (p.player_id = pid)) = some player) :
    (deploy_run_result ps pid pcid start_pos).find? (fun p => decide (p.player_id = pid)) =
      some (deploy_mover player pcid start_pos (find_captured ps pid start_pos).isSome) := by
  unfold deploy_run_result
  cases hcm : find_captured ps pid start_pos with
  | none =>
    dsimp only
    unfold deploy_update deploy_mover
    exact get_player_update_val ps pid
      (fun pl => { pl with pieces := update_first pl.pieces (fun pc => decide (pc.piece_id = pcid)) (fun pc => { pc with status := PieceStatus.track, position := some start_pos }), stats_captures := pl.stats_captures + (if (none : Option (Nat × Piece)).isSome then 1 else 0), stats_deployments := pl.stats_deployments + 1 })
      (fun p => rfl) player hfind
  | some pr =>
    dsimp only
    unfold deploy_update deploy_mover
    exact get_player_update_val (apply_capture ps pid start_pos) pid
      (fun pl => { pl with pieces := update_first pl.pieces (fun pc => decide (pc.piece_id = pcid)) (fun pc => { pc with status := PieceStatus.track, position := some start_pos }), stats_captures := pl.stats_captures + (if (some pr : Option (Nat × Piece)).isSome then 1 else 0), stats_deployments := pl.stats_deployments + 1 })
      (fun p => rfl) player ((apply_capture_mover ps pid start_pos).trans hfind)

/-- After a home→track deployment that captures `(ow, capc)` at the mover's
start cell, the owner `ow` holds `capc` back at its home slot. -/
theorem deploy_run_result_owner (ps : List Player) (pid pcid : Nat) (start_pos : Int)
    (ow : Nat) (capc : Piece)
    (hnd : (ps.map Player.player_id).Nodup)
    (hcap : find_captured ps pid start_pos = some (ow, capc)) :
    ∃ ow2, (deploy_run_result ps pid pcid start_pos).find?
        (fun p => decide (p.player_id = ow)) = some ow2 ∧
      { capc with status := PieceStatus.home, position := some capc.home_position } ∈
        ow2.pieces := by
  obtain ⟨owner, hf, howid, howne, hfot⟩ := find_captured_eq ps pid start_pos ow capc hcap
  have hown := apply_capture_owner ps pid start_pos hnd owner hf
  unfold deploy_run_result
  cases hcm : find_captured ps pid start_pos with
  | none =>
    rw [hcap] at hcm
    cases hcm
  | some pr =>
    dsimp only
    refine ⟨capture_player_update owner start_pos, ?_, ?_⟩
    · rw [deploy_update_other _ pid pcid start_pos _ ow howne]
      rw [← howid]
      exact hown
    · unfold capture_player_update
      dsimp only
      have hfot2 : owner.pieces.find?
          (fun pc => decide (pc.status = PieceStatus.track ∧ pc.position = some start_pos)) =
          some capc := hfot
      exact update_first_mem
        (fun pc => decide (pc.status = PieceStatus.track ∧ pc.position = some start_pos))
        (fun pc => { pc with status := PieceStatus.home, position := some pc.home_position })
        owner.pieces capc hfot2

/-- C9: a Home piece is movable iff the dice shows 6 and the mover's start
cell holds none of the mover's own pieces; deploying puts the piece on the
start cell as a track piece; an opponent's piece standing there is captured
(returned to its own home slot, mover's capture counter +1), and with nobody
there the capture counter is unchanged. -/
theorem C9_home_deployment (s : GameSession) (pid pcid : Nat) (d : Int)
    (player : Player) (piece : Piece) (c : Color)
    (hgp : s.get_player pid = some player)
    (hfp : find_piece player pcid = some piece)
    (hc : player.color = some c)
    (hs : piece.status = PieceStatus.home)
    (hnd : (s.players.map Player.player_id).Nodup) :
    (can_move_piece player piece d = true ↔
      (d = 6 ∧ get_own_piece_at_position player PieceStatus.track (START_INDEX c) = none)) ∧
    (can_move_piece player piece d = true →
      ∃ s2 p2, move_piece s pid pcid d = Except.ok s2 ∧ s2.get_player pid = some p2 ∧
        find_piece p2 pcid =
          some { piece with status := PieceStatus.track, position := some (START_INDEX c) } ∧
        (∀ ow capc, find_captured s.players pid (START_INDEX c) = some (ow, capc) →
          p2.stats_captures = player.stats_captures + 1 ∧
          ∃ ow2, s2.get_player ow = some ow2 ∧
            { capc with status := PieceStatus.home,
                        position := some capc.home_position } ∈ ow2.pieces) ∧
        (find_captured s.players pid (START_INDEX c) = none →
          p2.stats_captures = player.stats_captures)) := by
  refine ⟨?_, ?_⟩
  · rw [can_move_piece_home player piece d c hc hs]
    simp [Option.isNone_iff_eq_none]
  · intro hcan
    have hrun := move_piece_deploy_run s pid pcid d player piece c hgp hfp hc hs hcan
    refine ⟨_, deploy_mover player pcid (START_INDEX c)
        (find_captured s.players pid (START_INDEX c)).isSome, hrun, ?_, ?_, ?_, ?_⟩
    · show GameSession.get_player _ pid = _
      unfold GameSession.get_player
      dsimp only
      exact deploy_run_result_mover s.players pid pcid (START_INDEX c) player hgp
    · unfold deploy_mover find_piece
      dsimp only
      rw [find_piece_update_first_same player.pieces pcid
        (fun pc => { pc with status := PieceStatus.track, position := some (START_INDEX c) })
        (fun pc => rfl)]
      rw [show player.pieces.find? (fun pc => decide (pc.piece_id = pcid)) = some piece from hfp]
      rfl
    · intro ow capc hcap
      constructor
      · unfold deploy_mover
        dsimp only
        rw [hcap]
        rfl
      · obtain ⟨ow2, how, hmem⟩ := deploy_run_result_owner s.players pid pcid (START_INDEX c)
          ow capc hnd hcap
        refine ⟨ow2, ?_, hmem⟩
        show GameSession.get_player _ ow = _
        unfold GameSession.get_player
        dsimp only
        exact how
    · intro hnone
      unfold deploy_mover
      dsimp only
      rw [hnone]
      rfl

/-- Witness for `C9_home_deployment`: red rolls 6 with all pieces home; the
blue piece sitting on red's start cell 0 is captured by the deployment. -/
theorem C9_home_deployment_witness :
    (can_move_piece (mk_fresh_player 1 Color.red) (mk_home_piece 1 0) 6 = true ↔
      ((6 : Int) = 6 ∧ get_own_piece_at_position (mk_fresh_player 1 Color.red)
        PieceStatus.track (START_INDEX Color.red) = none)) ∧
    (∃ s2 p2, move_piece deploy_capture_session 1 10 6 = Except.ok s2 ∧
      s2.get_player 1 = some p2 ∧
      find_piece p2 10 =
        some { mk_home_piece 1 0 with
               status := PieceStatus.track,
               position := some (START_INDEX Color.red) } ∧
      p2.stats_captures = (mk_fresh_player 1 Color.red).stats_captures + 1 ∧
      ∃ ow2, s2.get_player 2 = some ow2 ∧
        { mk_track_piece 2 0 0 with
          status := PieceStatus.home,
          position := some (mk_track_piece 2 0 0).home_position } ∈ ow2.pieces) := by
  have h := C9_home_deployment deploy_capture_session 1 10 6 (mk_fresh_player 1 Color.red)
    (mk_home_piece 1 0) Color.red (by decide) (by decide) (by decide) (by decide) (by decide)
  refine ⟨h.1, ?_⟩
  obtain ⟨s2, p2, hok, hget, hfind, hcapc, hnone⟩ := h.2 (by decide)
  obtain ⟨hstats, ow2, how, hmem⟩ := hcapc 2 (mk_track_piece 2 0 0) (by decide)
  exact ⟨s2, p2, hok, hget, hfind, hstats, ow2, how, hmem⟩
